import Mathlib

/-!
# dnspod: a client of the DNSPod HTTP API

A shallow embedding of the Go package `dnspod` (base.go, dnspod.go, domain.go, record.go,
user.go) and theorems about it.

How the Go program is read here:

* an `error` is `Option GoError`, `none` being `nil`;
* the HTTP client is a function from the request it is handed to what `client.Do` gives back,
  and every operation returns, next to its Go results, the list of requests it handed over;
* a response body is held as the JSON text it is (`Body`): either bytes that are no JSON text
  at all, or the tree of the JSON value, so `encoding/json` is modelled from the tree on;
* Go `int` and `int64` values are `Int`; where `strconv.ParseInt` checks the 64-bit range the
  check is written out.
-/

namespace Dnspod

/-! ## Errors -/

/-- The errors the package can hand to its caller, by where they are made. -/
inductive GoError where
  /-- errors.New(text) -/
  | errorString (text : String)
  /-- whatever client.Do reported -/
  | transport (text : String)
  /-- json.SyntaxError: the body is no JSON text -/
  | jsonSyntax (text : String)
  /-- json.UnmarshalTypeError: a JSON value of kind `value` met a Go value of type `goType`
  (for a value inside a struct Go also names the field; the field is not kept here) -/
  | unmarshalType (value : String) (goType : String)
  /-- the error encoding/json makes for a misuse of the `,string` tag option -/
  | stringTag (item : String) (goType : String)
  /-- time.ParseError for the text `value` -/
  | timeParse (value : String)
  deriving DecidableEq, Repr

/-- The method Error() of each of them; for an UnmarshalTypeError the text Go gives when the
value is not inside a struct. -/
def GoError.Error : GoError → String
  | .errorString text => text
  | .transport text => text
  | .jsonSyntax text => text
  | .unmarshalType value goType =>
      "json: cannot unmarshal " ++ value ++ " into Go value of type " ++ goType
  | .stringTag item goType =>
      "json: invalid use of ,string struct tag, trying to unmarshal " ++ item ++ " into " ++ goType
  | .timeParse value => "parsing time " ++ value

/-- errors.New -/
def errors.New (text : String) : GoError := GoError.errorString text

/-! ## url.Values and the transport helper (base.go) -/

/-- url.Values, as far as the package uses it: only `Set` is ever called, so every key holds
one value. The pairs are kept in the order the keys were first set. -/
abbrev Values := List (String × String)

/-- url.Values.Set: replace the value of `key`, or add the key. -/
def Values.Set (v : Values) (key value : String) : Values :=
  if v.any (fun kv => kv.1 == key) then
    v.map (fun kv => if kv.1 == key then (key, value) else kv)
  else v ++ [(key, value)]

/-- The value held for `key`, if the key is present at all. -/
def Values.lookup (v : Values) (key : String) : Option String :=
  (v.find? (fun kv => kv.1 == key)).map (fun kv => kv.2)

/-- url.Values.Has -/
def Values.Has (v : Values) (key : String) : Bool :=
  v.any (fun kv => kv.1 == key)

/-- The request simpleHTTP builds: method, URL, the two fixed headers, and the form
parameters whose encoding (params.Encode()) is the body. -/
structure Request where
  method : String
  url : String
  header : List (String × String)
  form : Values
  deriving DecidableEq, Repr

/-- An http.Client: what client.Do answers to a request, the body of the response or the
transport error. `β` is the way the body bytes are held. -/
abbrev Client (β : Type) := Request → Except GoError β

/-- simpleHTTP (base.go): build the request, hand it to the client once, give back the body
or the client's error. The request is returned too, for the record of what was sent. -/
def simpleHTTP {β : Type} (client : Client β) (method url : String) (params : Values) :
    Request × Except GoError β :=
  let req : Request :=
    { method := method
      url := url
      header := [("User-Agent", "Go DDNS/1.0.0 (bigemon@foxmail.com)"),
                 ("Content-Type", "application/x-www-form-urlencoded; charset=utf-8")]
      form := params }
  (req, client req)

/-- What a call of an operation amounts to: the Go results `ret` and `err`, and the requests
handed to the client, in order. -/
structure Outcome (α : Type) where
  ret : α
  err : Option GoError
  calls : List Request

/-- strconv.Itoa and strconv.FormatInt(n, 10) -/
def strconv.Itoa (n : Int) : String := toString n

/-! ## Wire-format adapters for flags (base.go) -/

/-- The double quote character. -/
def dq : Char := Char.ofNat 34

/-- A token between double quotes, the way the Go source writes a raw string with quotes in it. -/
def quoted (s : String) : String := String.mk (dq :: (s.toList ++ [dq]))

/-- Yes converts "yes"/"no" to bool. -/
abbrev Yes := Bool

/-- Yes.MarshalJSON -/
def Yes.MarshalJSON (p : Yes) : String × Option GoError :=
  if p then (quoted "yes", none) else (quoted "no", none)

/-- Yes.UnmarshalJSON: the new value of the receiver and the error. -/
def Yes.UnmarshalJSON (data : String) : Yes × Option GoError :=
  (data == quoted "yes", none)

/-- Yes.String -/
def Yes.String (p : Yes) : String := if p then "yes" else "no"

/-- Enable converts "enable"/"disable" to bool. -/
abbrev Enable := Bool

/-- Enable.MarshalJSON -/
def Enable.MarshalJSON (p : Enable) : String × Option GoError :=
  if p then (quoted "enable", none) else (quoted "disable", none)

/-- Enable.UnmarshalJSON: the new value of the receiver and the error. -/
def Enable.UnmarshalJSON (data : String) : Enable × Option GoError :=
  (data == quoted "enable", none)

/-- Enable.String -/
def Enable.String (p : Enable) : String := if p then "enable" else "disable"

/-- Enabled converts "0"/"1" to bool. -/
abbrev Enabled := Bool

/-- Enabled.MarshalJSON -/
def Enabled.MarshalJSON (p : Enabled) : String × Option GoError :=
  if p then (quoted "1", none) else (quoted "0", none)

/-- Enabled.UnmarshalJSON: the new value of the receiver and the error. -/
def Enabled.UnmarshalJSON (data : String) : Enabled × Option GoError :=
  (data == quoted "1", none)

/-- Enabled.String -/
def Enabled.String (p : Enabled) : String := if p then "1" else "0"

/-! ## The timestamp adapter (base.go)

`time.Time` comes from the Go library. A `Time` is held as the arguments of the `time.Date`
call that makes it; the clock reading it shows depends on the zone data of the process
(`Zones`), which decide where `time.Date` lands when the local clock skips the reading asked
for. -/

/-- A clock reading: year, month, day, hour, minute, second. -/
structure Civil where
  year : Int
  month : Nat
  day : Nat
  hour : Nat
  min : Nat
  sec : Nat
  deriving DecidableEq, Repr

/-- time.isLeap -/
def isLeap (year : Int) : Bool :=
  year % 4 == 0 && (year % 100 != 0 || year % 400 == 0)

/-- time.daysIn -/
def daysIn (month : Nat) (year : Int) : Nat :=
  if month == 2 then (if isLeap year then 29 else 28)
  else if month == 4 || month == 6 || month == 9 || month == 11 then 30
  else 31

/-- A reading a clock can show: month and day exist, the time of day is in range. -/
def Civil.valid (c : Civil) : Bool :=
  decide (1 ≤ c.month) && decide (c.month ≤ 12) && decide (1 ≤ c.day) &&
    decide (c.day ≤ daysIn c.month c.year) &&
    decide (c.hour < 24) && decide (c.min < 60) && decide (c.sec < 60)

/-- A time.Location: UTC, the zone of the process (time.Local), or another zone by name. -/
inductive Loc where
  | UTC
  | Local
  | named (name : String)
  deriving DecidableEq, Repr

/-- The zone data of the process, as time.Date uses them: `land l c` is the reading shown in
zone `l` by the instant time.Date picks for the reading `c`. A reading that the clock of the
zone shows is kept; only one it skips (a forward clock change) lands elsewhere. -/
structure Zones where
  land : Loc → Civil → Civil
  land_valid : ∀ l c, c.valid = true → (land l c).valid = true
  land_land : ∀ l c, c.valid = true → land l (land l c) = land l c

/-- Time overwrites the layout of time.Time for JSON. The value is
time.Date(civil.year, civil.month, ..., civil.sec, nsec, loc). -/
structure Time where
  civil : Civil
  nsec : Nat
  loc : Loc
  deriving DecidableEq, Repr

/-- The zero time.Time: January 1, year 1, 00:00:00 UTC. -/
def Time.zero : Time := ⟨⟨1, 1, 1, 0, 0, 0⟩, 0, Loc.UTC⟩

/-- The reading a Time shows in its own location. -/
def Time.clock (tz : Zones) (p : Time) : Civil := tz.land p.loc p.civil

/-- The decimal digit character of `n % 10`. -/
def digit (n : Nat) : Char := Char.ofNat (48 + n % 10)

/-- The loop of time.appendInt that writes the decimal digits of `u` in front of `acc`; the
Go buffer has room for 20 digits, which is the count of rounds here. -/
def decimalLoop : Nat → Nat → List Char → List Char
  | 0, u, acc => digit u :: acc
  | fuel + 1, u, acc =>
      if 10 ≤ u then decimalLoop fuel (u / 10) (digit u :: acc) else digit u :: acc

/-- time.appendInt: `x` in decimal, zero-padded to `width`, after `b`. -/
def appendInt (b : List Char) (x : Int) (width : Nat) : List Char :=
  let sign : List Char := if x < 0 then ['-'] else []
  let ds := decimalLoop 20 x.natAbs []
  b ++ sign ++ List.replicate (width - ds.length) '0' ++ ds

/-- Time.AppendFormat(b, timeFormart) for the layout "2006-01-02 15:04:05", applied to the
reading the time shows. -/
def appendFormat (b : List Char) (c : Civil) : List Char :=
  let b := appendInt b c.year 4
  let b := appendInt (b ++ ['-']) c.month 2
  let b := appendInt (b ++ ['-']) c.day 2
  let b := appendInt (b ++ [' ']) c.hour 2
  let b := appendInt (b ++ [':']) c.min 2
  appendInt (b ++ [':']) c.sec 2

/-- time.isDigit: is there a decimal digit at index `i`. -/
def isDigit (s : List Char) (i : Nat) : Bool :=
  match s.get? i with
  | some c => decide ('0' ≤ c) && decide (c ≤ '9')
  | none => false

/-- The value of a run of decimal digits; none when the run is empty or holds something else
(time.atoi on text that starts with a digit). -/
def atoi (s : List Char) : Option Nat :=
  if s.isEmpty || !(s.all (fun c => decide ('0' ≤ c) && decide (c ≤ '9'))) then none
  else some (s.foldl (fun n c => 10 * n + (c.toNat - 48)) 0)

/-- time.getnum: a one- or two-digit number, two digits exactly when `fixed`. -/
def getnum (s : List Char) (fixed : Bool) : Option (Nat × List Char) :=
  if !isDigit s 0 then none
  else if !isDigit s 1 then
    if fixed then none else some ((s.headD '0').toNat - 48, s.drop 1)
  else some (((s.headD '0').toNat - 48) * 10 + (((s.drop 1).headD '0').toNat - 48), s.drop 2)

/-- time.cutspace -/
def cutspace (s : List Char) : List Char := s.dropWhile (fun c => c == ' ')

/-- The loop of time.skip, with one round per character of the layout text at most. -/
def skipLoop : Nat → List Char → List Char → Option (List Char)
  | 0, value, pre => if pre.isEmpty then some value else none
  | fuel + 1, value, pre =>
      match pre with
      | [] => some value
      | p :: ps =>
          if p == ' ' then
            if !value.isEmpty && value.headD ' ' != ' ' then none
            else skipLoop fuel (cutspace value) (cutspace (p :: ps))
          else
            match value with
            | [] => none
            | v :: vs => if v != p then none else skipLoop fuel vs ps

/-- time.skip: take the layout text `pre` off the front of `value`; a space of the layout
stands for any run of spaces. -/
def skip (value pre : List Char) : Option (List Char) := skipLoop pre.length value pre

/-- time.commaOrPeriod -/
def commaOrPeriod (c : Char) : Bool := c == '.' || c == ','

/-- The fraction of a second that time.Parse accepts after the seconds although the layout has
none: a period or comma and digits. Gives the nanoseconds and the rest of the text. -/
def fraction (value : List Char) : Nat × List Char :=
  if decide (2 ≤ value.length) && commaOrPeriod (value.headD ' ') && isDigit value 1 then
    let ds := (value.drop 1).takeWhile (fun c => decide ('0' ≤ c) && decide (c ≤ '9'))
    let used := ds.take 9
    (used.foldl (fun n c => 10 * n + (c.toNat - 48)) 0 * 10 ^ (9 - used.length),
      value.drop (1 + ds.length))
  else (0, value)

/-- time.Parse for the quoted layout "2006-01-02 15:04:05" between double quotes: the reading
and the nanoseconds, or none where Parse gives a ParseError. -/
def parseLayout (value : List Char) : Option (Civil × Nat) :=
  match skip value [dq] with
  | none => none
  | some value =>
  if decide (value.length < 4) || !isDigit value 0 then none else
  match atoi (value.take 4) with
  | none => none
  | some year =>
  match skip (value.drop 4) ['-'] with
  | none => none
  | some value =>
  match getnum value true with
  | none => none
  | some (month, value) =>
  if decide (month ≤ 0) || decide (12 < month) then none else
  match skip value ['-'] with
  | none => none
  | some value =>
  match getnum value true with
  | none => none
  | some (day, value) =>
  match skip value [' '] with
  | none => none
  | some value =>
  match getnum value false with
  | none => none
  | some (hour, value) =>
  if decide (24 ≤ hour) then none else
  match skip value [':'] with
  | none => none
  | some value =>
  match getnum value true with
  | none => none
  | some (min, value) =>
  if decide (60 ≤ min) then none else
  match skip value [':'] with
  | none => none
  | some value =>
  match getnum value true with
  | none => none
  | some (sec, value) =>
  if decide (60 ≤ sec) then none else
  match skip (fraction value).2 [dq] with
  | none => none
  | some rest =>
  if !rest.isEmpty then none
  else if decide (day < 1) || decide (daysIn month (Int.ofNat year) < day) then none
  else some (⟨Int.ofNat year, month, day, hour, min, sec⟩, (fraction value).1)

/-- Time.MarshalJSON: a quote, the time in the layout, a quote; the error is always nil. -/
def Time.MarshalJSON (tz : Zones) (p : Time) : String × Option GoError :=
  (String.mk (appendFormat [dq] (p.clock tz) ++ [dq]), none)

/-- Time.UnmarshalJSON: time.ParseInLocation of the quoted layout in time.Local. The receiver
is overwritten in either case, with the zero time when parsing fails. -/
def Time.UnmarshalJSON (data : String) : Time × Option GoError :=
  match parseLayout data.toList with
  | some (c, nsec) => (⟨c, nsec, Loc.Local⟩, none)
  | none => (Time.zero, some (GoError.timeParse data))

/-- Time.String -/
def Time.String (tz : Zones) (p : Time) : String := String.mk (appendFormat [] (p.clock tz))

/-! ## encoding/json, from the tree of the value on

The decoder of `encoding/json` (as of Go 1.20) is modelled for the Go types of this package.
It walks the members of an object in the order of the text. An error of the kind the decoder saves
(`d.saveError`: the first one is kept, decoding goes on) is `saved`; an error that ends the
decoding at once (what an UnmarshalJSON method returns, a `,string` item that is no literal)
is `fatal`. String literals are taken to be written without escape sequences, so the text
of the literal of `str s` is `s` between double quotes. -/

/-- A JSON value. A number keeps its literal, since the decoder parses that text. -/
inductive Json where
  | null
  | bool (b : Bool)
  | num (lit : String)
  | str (s : String)
  | arr (items : List Json)
  | obj (members : List (String × Json))

/-- A response body: bytes that are no JSON text (with the text of the json.SyntaxError they
give), or the JSON value they spell. -/
inductive Body where
  | malformed (syntaxError : String)
  | doc (v : Json)

/-- The word UnmarshalTypeError uses for the kind of a JSON value. -/
def Json.kind : Json → String
  | .null => "null"
  | .bool _ => "bool"
  | .num _ => "number"
  | .str _ => "string"
  | .arr _ => "array"
  | .obj _ => "object"

/-- The text of a value as it is handed to an UnmarshalJSON method. The methods of this
package look for a text that starts with a double quote, so of an array or an object only
the opening bracket is kept. -/
def Json.raw : Json → String
  | .null => "null"
  | .bool true => "true"
  | .bool false => "false"
  | .num lit => lit
  | .str s => quoted s
  | .arr _ => "["
  | .obj _ => String.mk [Char.ofNat 123]

/-- The state of a decoding step: the Go value as it stands, the saved error, and the error
that stopped the decoding, if any. -/
structure Dec (α : Type) where
  val : α
  saved : Option GoError
  fatal : Option GoError

/-- A step without error. -/
def Dec.ok {α : Type} (a : α) : Dec α := ⟨a, none, none⟩

/-- A step that saves an error and leaves the value as it is. -/
def Dec.soft {α : Type} (a : α) (e : GoError) : Dec α := ⟨a, some e, none⟩

/-- A step that stops the decoding. -/
def Dec.hard {α : Type} (a : α) (e : GoError) : Dec α := ⟨a, none, some e⟩

/-- Put the value of a step into its place in the enclosing Go value. -/
def Dec.map {α β : Type} (d : Dec α) (f : α → β) : Dec β := ⟨f d.val, d.saved, d.fatal⟩

/-- The first of two errors that is there: d.saveError keeps the error it already has. -/
def firstErr (a b : Option GoError) : Option GoError :=
  match a with
  | some e => some e
  | none => b

/-- The error Unmarshal returns at the end: the one that stopped it, else the saved one. -/
def Dec.err {α : Type} (d : Dec α) : Option GoError := firstErr d.fatal d.saved

/-- The runes that Go folds onto an ASCII letter when it matches a key with a field name:
the letter in the other case, the Kelvin sign for k, the long s for s. -/
def foldRune (c : Char) : Char :=
  if decide ('A' ≤ c) && decide (c ≤ 'Z') then Char.ofNat (c.toNat + 32)
  else if c == Char.ofNat 0x212A then 'k'
  else if c == Char.ofNat 0x17F then 's'
  else c

/-- Does the key of a member name the field with JSON name `name` (lower-case ASCII letters
and underscores): the same text, or the same under case folding. -/
def keyIs (key name : String) : Bool := key.toList.map foldRune == name.toList

/-- The members of an object, one after the other, into a struct: `field key v a` stores the
member `key: v`. Stops at the first fatal error. -/
def decodeMembers {α : Type} (field : String → Json → α → Dec α) :
    List (String × Json) → α → Option GoError → Dec α
  | [], a, saved => ⟨a, saved, none⟩
  | (key, v) :: rest, a, saved =>
      let d := field key v a
      match d.fatal with
      | some e => ⟨d.val, firstErr saved d.saved, some e⟩
      | none => decodeMembers field rest d.val (firstErr saved d.saved)

/-- A JSON value into a Go struct of type `goType`: an object member by member, null leaves
the struct as it is, anything else is an UnmarshalTypeError. -/
def decodeStruct {α : Type} (goType : String) (field : String → Json → α → Dec α)
    (v : Json) (a : α) : Dec α :=
  match v with
  | .obj members => decodeMembers field members a none
  | .null => Dec.ok a
  | other => Dec.soft a (GoError.unmarshalType other.kind goType)

/-- The elements of an array, one after the other, each into a fresh element; at a fatal
error the slice ends with the element that was being decoded. -/
def decodeElems {α : Type} (elem : Json → α → Dec α) (zero : α) :
    List Json → List α → Option GoError → Dec (List α)
  | [], acc, saved => ⟨acc, saved, none⟩
  | v :: rest, acc, saved =>
      let d := elem v zero
      match d.fatal with
      | some e => ⟨acc ++ [d.val], firstErr saved d.saved, some e⟩
      | none => decodeElems elem zero rest (acc ++ [d.val]) (firstErr saved d.saved)

/-- A JSON value into a nil Go slice of type `goType` (a nil and an empty slice are both the
empty list): an array element by element, null gives nil, anything else is an
UnmarshalTypeError. -/
def decodeSlice {α : Type} (goType : String) (elem : Json → α → Dec α) (zero : α)
    (v : Json) : Dec (List α) :=
  match v with
  | .arr items => decodeElems elem zero items [] none
  | .null => Dec.ok []
  | other => Dec.soft [] (GoError.unmarshalType other.kind goType)

/-- json.Unmarshal(res, &target) with the decoder of the type of `target`: the target
afterwards and the error. A body that is no JSON text leaves the target untouched. -/
def json.Unmarshal {α : Type} (res : Body) (decode : Json → α → Dec α) (target : α) :
    α × Option GoError :=
  match res with
  | .malformed text => (target, some (GoError.jsonSyntax text))
  | .doc v => ((decode v target).val, (decode v target).err)

/-- strconv.ParseInt(s, 10, 64): an optional sign, decimal digits, a value that fits 64 bits. -/
def strconv.ParseInt (s : String) : Option Int :=
  let cs := s.toList
  let neg := cs.headD ' ' == '-'
  let ds := if cs.headD ' ' == '-' || cs.headD ' ' == '+' then cs.drop 1 else cs
  match atoi ds with
  | none => none
  | some n =>
      let x : Int := if neg then -(Int.ofNat n) else Int.ofNat n
      if decide (-(2 : Int) ^ 63 ≤ x) && decide (x < (2 : Int) ^ 63) then some x else none

/-- A JSON value into a Go string. -/
def decodeString (v : Json) (cur : String) : Dec String :=
  match v with
  | .str s => Dec.ok s
  | .null => Dec.ok cur
  | other => Dec.soft cur (GoError.unmarshalType other.kind "string")

/-- A JSON value into a Go bool. -/
def decodeBool (v : Json) (cur : Bool) : Dec Bool :=
  match v with
  | .bool b => Dec.ok b
  | .null => Dec.ok cur
  | other => Dec.soft cur (GoError.unmarshalType other.kind "bool")

/-- A JSON value into a Go int or int64 field without the `,string` option. -/
def decodeInt (goType : String) (v : Json) (cur : Int) : Dec Int :=
  match v with
  | .num lit =>
      match strconv.ParseInt lit with
      | some n => Dec.ok n
      | none => Dec.soft cur (GoError.unmarshalType ("number " ++ lit) goType)
  | .null => Dec.ok cur
  | other => Dec.soft cur (GoError.unmarshalType other.kind goType)

/-- Is the text a string literal without escapes: between double quotes, no quote, backslash
or control character inside. -/
def isPlainLiteral (cs : List Char) : Bool :=
  decide (2 ≤ cs.length) && cs.headD ' ' == dq && cs.getLastD ' ' == dq &&
    ((cs.drop 1).dropLast).all (fun c => c != dq && c != '\\' && decide (32 ≤ c.toNat))

/-- The item between the quotes of a `,string` value into a Go int (literalStore with
fromQuoted): the empty text, a literal that is no number, and a number that does not parse
are errors; the text null leaves the field as it is. -/
def quotedInt (goType : String) (item : String) (cur : Int) : Dec Int :=
  match item.toList with
  | [] => Dec.soft cur (GoError.stringTag (quoted item) goType)
  | c :: cs =>
      if c == 'n' then
        if item == "null" then Dec.ok cur
        else Dec.soft cur (GoError.stringTag (quoted item) goType)
      else if c == 't' || c == 'f' then Dec.soft cur (GoError.stringTag (quoted item) goType)
      else if c == dq then
        if isPlainLiteral (c :: cs) then Dec.soft cur (GoError.unmarshalType "string" goType)
        else Dec.hard cur (GoError.stringTag (quoted item) goType)
      else if c != '-' && !(decide ('0' ≤ c) && decide (c ≤ '9')) then
        Dec.hard cur (GoError.stringTag (quoted item) goType)
      else
        match strconv.ParseInt item with
        | some n => Dec.ok n
        | none => Dec.soft cur (GoError.unmarshalType ("number " ++ item) goType)

/-- A JSON value into a Go int or int64 field tagged `,string`: the number comes inside a
JSON string; a value that is not a string (null apart) is an error. -/
def decodeIntQuoted (goType : String) (v : Json) (cur : Int) : Dec Int :=
  match v with
  | .str s => quotedInt goType s cur
  | .null => Dec.ok cur
  | _ => Dec.soft cur (GoError.stringTag "unquoted value" goType)

/-- A JSON value into a Yes field: the decoder calls Yes.UnmarshalJSON on the text of the
value, whatever the value is. -/
def decodeYes (v : Json) : Dec Yes :=
  match (Yes.UnmarshalJSON v.raw).2 with
  | none => Dec.ok (Yes.UnmarshalJSON v.raw).1
  | some e => Dec.hard (Yes.UnmarshalJSON v.raw).1 e

/-- A JSON value into an Enable field, through Enable.UnmarshalJSON. -/
def decodeEnable (v : Json) : Dec Enable :=
  match (Enable.UnmarshalJSON v.raw).2 with
  | none => Dec.ok (Enable.UnmarshalJSON v.raw).1
  | some e => Dec.hard (Enable.UnmarshalJSON v.raw).1 e

/-- A JSON value into a Time field, through Time.UnmarshalJSON; its error stops the decoding. -/
def decodeTime (v : Json) : Dec Time :=
  match (Time.UnmarshalJSON v.raw).2 with
  | none => Dec.ok (Time.UnmarshalJSON v.raw).1
  | some e => Dec.hard (Time.UnmarshalJSON v.raw).1 e

/-- A JSON value into an Enabled field tagged `,string` (Record.Enabled): the text between
the quotes of a JSON string, or the text null, goes to Enabled.UnmarshalJSON. -/
def decodeEnabledQuoted (v : Json) (cur : Enabled) : Dec Enabled :=
  match v with
  | .str s =>
      if s.isEmpty then Dec.soft cur (GoError.stringTag (quoted s) "dnspod.Enabled")
      else
        match (Enabled.UnmarshalJSON s).2 with
        | none => Dec.ok (Enabled.UnmarshalJSON s).1
        | some e => Dec.hard (Enabled.UnmarshalJSON s).1 e
  | .null =>
      match (Enabled.UnmarshalJSON "null").2 with
      | none => Dec.ok (Enabled.UnmarshalJSON "null").1
      | some e => Dec.hard (Enabled.UnmarshalJSON "null").1 e
  | _ => Dec.soft cur (GoError.stringTag "unquoted value" "dnspod.Enabled")

/-- A Go float32 read from JSON, held as the number literal it was read from: the rounding
to the 24 bits of a float32 is not carried out. -/
structure Float32 where
  lit : String
  deriving DecidableEq, Repr

/-- The value of a run of decimal digits, 0 for the empty run. -/
def digitsValue (ds : List Char) : Nat := ds.foldl (fun n c => 10 * n + (c.toNat - 48)) 0

/-- Does the JSON number literal exceed the float32 range, so that
strconv.ParseFloat(lit, 32) gives a range error: its magnitude is at least
(2^25 - 1) * 2^103, the point half-way from the largest float32 to 2^128. -/
def overflowsFloat32 (lit : String) : Bool :=
  let isD : Char → Bool := fun c => decide ('0' ≤ c) && decide (c ≤ '9')
  let cs := lit.toList
  let cs := if cs.headD ' ' == '-' then cs.drop 1 else cs
  let ip := cs.takeWhile isD
  let r := cs.dropWhile isD
  let fp := if r.headD ' ' == '.' then (r.drop 1).takeWhile isD else []
  let r := if r.headD ' ' == '.' then (r.drop 1).dropWhile isD else r
  let r := r.drop 1
  let eneg := r.headD ' ' == '-'
  let ed := if r.headD ' ' == '-' || r.headD ' ' == '+' then r.drop 1 else r
  let m := digitsValue (ip ++ fp)
  let e : Int := (if eneg then -(Int.ofNat (digitsValue ed)) else Int.ofNat (digitsValue ed))
    - Int.ofNat fp.length
  if 0 ≤ e then decide ((2 ^ 25 - 1) * 2 ^ 103 ≤ m * 10 ^ e.toNat)
  else decide ((2 ^ 25 - 1) * 2 ^ 103 * 10 ^ (-e).toNat ≤ m)

/-- A JSON value into a Go float32. -/
def decodeFloat32 (v : Json) (cur : Float32) : Dec Float32 :=
  match v with
  | .num lit =>
      if overflowsFloat32 lit then Dec.soft cur (GoError.unmarshalType ("number " ++ lit) "float32")
      else Dec.ok ⟨lit⟩
  | .null => Dec.ok cur
  | other => Dec.soft cur (GoError.unmarshalType other.kind "float32")

/-! ## The base struct (base.go) -/

/-- Status of dnspod result -/
structure Status where
  Code : Int
  Message : String
  CreatedAt : Time
  deriving DecidableEq, Repr

/-- The zero Status. -/
def Status.zero : Status := ⟨0, "", Time.zero⟩

/-- One member into a Status: code (int, `,string`), message, created_at. -/
def Status.field (key : String) (v : Json) (s : Status) : Dec Status :=
  if keyIs key "code" then (decodeIntQuoted "int" v s.Code).map (fun x => { s with Code := x })
  else if keyIs key "message" then (decodeString v s.Message).map (fun x => { s with Message := x })
  else if keyIs key "created_at" then (decodeTime v).map (fun x => { s with CreatedAt := x })
  else Dec.ok s

/-- A JSON value into a Status. -/
def Status.decode (v : Json) (s : Status) : Dec Status := decodeStruct "dnspod.Status" Status.field v s

/-- The struct an operation decodes its response into (`jsonRes`): the Status and the one
payload field of the operation. -/
structure Reply (α : Type) where
  Status : Status
  payload : α

/-- One member into a jsonRes with a payload field of JSON name `name`. -/
def Reply.field {α : Type} (name : String) (dec : Json → α → Dec α)
    (key : String) (v : Json) (r : Reply α) : Dec (Reply α) :=
  if keyIs key "status" then (Status.decode v r.Status).map (fun x => { r with Status := x })
  else if keyIs key name then (dec v r.payload).map (fun x => { r with payload := x })
  else Dec.ok r

/-- A JSON value into a jsonRes with a payload field of JSON name `name`. -/
def Reply.decode {α : Type} (name : String) (dec : Json → α → Dec α) (v : Json) (r : Reply α) :
    Dec (Reply α) :=
  decodeStruct "struct" (Reply.field name dec) v r

/-- One member into a jsonRes that has the Status field only. -/
def statusOnlyField (key : String) (v : Json) (s : Status) : Dec Status :=
  if keyIs key "status" then Status.decode v s else Dec.ok s

/-- A JSON value into a jsonRes that has the Status field only (held as that Status). -/
def statusOnly (v : Json) (s : Status) : Dec Status := decodeStruct "struct" statusOnlyField v s

/-! ## Records (record.go) -/

/-- RType is the enum of the record type arg -/
abbrev RType := String

/-- RTypeMX -/
def RTypeMX : RType := "MX"

/-- RTypeA -/
def RTypeA : RType := "A"

/-- Record details -/
structure Record where
  ID : Int
  TTL : Int
  Value : String
  Enabled : Enabled
  UpdatedOn : Time
  Name : String
  Line : String
  LineID : String
  Type_ : String
  Weight : Int
  MonitorStatus : String
  Remark : String
  UseAQB : Yes
  MX : Int
  deriving DecidableEq, Repr

/-- The zero Record. -/
def Record.zero : Record := ⟨0, 0, "", false, Time.zero, "", "", "", "", 0, "", "", false, 0⟩

/-- One member into a Record, by the json tags of the struct. -/
def Record.field (key : String) (v : Json) (r : Record) : Dec Record :=
  if keyIs key "id" then (decodeIntQuoted "int64" v r.ID).map (fun x => { r with ID := x })
  else if keyIs key "ttl" then (decodeIntQuoted "int" v r.TTL).map (fun x => { r with TTL := x })
  else if keyIs key "value" then (decodeString v r.Value).map (fun x => { r with Value := x })
  else if keyIs key "enabled" then
    (decodeEnabledQuoted v r.Enabled).map (fun x => { r with Enabled := x })
  else if keyIs key "updated_on" then (decodeTime v).map (fun x => { r with UpdatedOn := x })
  else if keyIs key "name" then (decodeString v r.Name).map (fun x => { r with Name := x })
  else if keyIs key "line" then (decodeString v r.Line).map (fun x => { r with Line := x })
  else if keyIs key "line_id" then (decodeString v r.LineID).map (fun x => { r with LineID := x })
  else if keyIs key "type" then (decodeString v r.Type_).map (fun x => { r with Type_ := x })
  else if keyIs key "weight" then (decodeInt "int" v r.Weight).map (fun x => { r with Weight := x })
  else if keyIs key "monitor_status" then
    (decodeString v r.MonitorStatus).map (fun x => { r with MonitorStatus := x })
  else if keyIs key "remark" then (decodeString v r.Remark).map (fun x => { r with Remark := x })
  else if keyIs key "use_aqb" then (decodeYes v).map (fun x => { r with UseAQB := x })
  else if keyIs key "mx" then (decodeIntQuoted "int" v r.MX).map (fun x => { r with MX := x })
  else Dec.ok r

/-- A JSON value into a Record. -/
def Record.decode (v : Json) (r : Record) : Dec Record := decodeStruct "dnspod.Record" Record.field v r

/-- A JSON value into a nil []Record. -/
def decodeRecords (v : Json) : Dec (List Record) :=
  decodeSlice "[]dnspod.Record" Record.decode Record.zero v

/-- A Go slice, by its elements (a nil slice and an empty one are both the empty list). -/
abbrev Slice (α : Type) := List α

/-- RecordAPI packaged some dnspod record APIs -/
structure RecordAPI where
  loginToken : String
  client : Client Body

/-- List is used to get a list of records for a specified domain. The response is
unmarshalled into the result `list`; `jsonRes` is declared and never written. -/
def RecordAPI.List (p : RecordAPI) (domain : String) : Outcome (Slice Record) :=
  let params : Values := []
  let params := params.Set "format" "json"
  let params := params.Set "login_token" p.loginToken
  let params := params.Set "domain" domain
  let sent := simpleHTTP p.client "POST" "https://dnsapi.cn/Record.List" params
  match sent.2 with
  | .error err => ⟨[], some err, [sent.1]⟩
  | .ok res =>
      let jsonRes : Reply (Slice Record) := ⟨Status.zero, []⟩
      let list := json.Unmarshal res (fun v _ => decodeRecords v) []
      match list.2 with
      | some err => ⟨list.1, some err, [sent.1]⟩
      | none =>
          if jsonRes.Status.Code != 1 then
            ⟨list.1, some (errors.New jsonRes.Status.Message), [sent.1]⟩
          else ⟨jsonRes.payload, none, [sent.1]⟩

/-- DDNSOpt Opt arg struct -/
structure DDNSOpt where
  SubDomain : String
  RecordLine : String
  Value : String
  deriving DecidableEq, Repr

/-- DDNS used to update the specified DDNS record -/
def RecordAPI.DDNS (p : RecordAPI) (domain : String) (recordID : Int) (opt : Slice DDNSOpt) :
    Outcome Unit :=
  let params : Values := []
  let params := params.Set "record_id" (strconv.Itoa recordID)
  let params := params.Set "domain" domain
  let params := params.Set "login_token" p.loginToken
  let params := params.Set "format" "json"
  let params := match opt with
    | o :: _ => if o.RecordLine != "" then params.Set "record_line" o.RecordLine
        else params.Set "record_line" "默认"
    | [] => params.Set "record_line" "默认"
  let params := match opt with
    | o :: _ => if o.Value != "" then params.Set "value" o.Value else params
    | [] => params
  let params := match opt with
    | o :: _ => if o.SubDomain != "" then params.Set "sub_domain" o.SubDomain else params
    | [] => params
  let sent := simpleHTTP p.client "POST" "https://dnsapi.cn/Record.Ddns" params
  match sent.2 with
  | .error err => ⟨(), some err, [sent.1]⟩
  | .ok res =>
      let jsonRes := json.Unmarshal res statusOnly Status.zero
      match jsonRes.2 with
      | some err => ⟨(), some err, [sent.1]⟩
      | none =>
          if jsonRes.1.Code != 1 then ⟨(), some (errors.New jsonRes.1.Message), [sent.1]⟩
          else ⟨(), none, [sent.1]⟩

/-- RecordOpt Opt arg struct -/
structure RecordOpt where
  SubDomain : String
  RecordLine : String
  Disable : Bool
  MX : Int
  TTL : Int
  Weight : Int
  deriving DecidableEq, Repr

/-- The zero RecordOpt. -/
def RecordOpt.zero : RecordOpt := ⟨"", "", false, 0, 0, 0⟩

/-- The parameters Create assembles once the check of opt.MX has passed: the body of Create
from `params := url.Values{}` to the last `params.Set`. -/
def RecordAPI.Create.params (p : RecordAPI) (domain : String) (recordType : RType)
    (value : String) (opt : Slice RecordOpt) : Values :=
  let params : Values := []
  let params := params.Set "login_token" p.loginToken
  let params := params.Set "format" "json"
  let params := params.Set "domain" domain
  let params := params.Set "record_type" recordType
  let params := params.Set "value" value
  let o : RecordOpt := match opt with
    | [] => RecordOpt.zero
    | o :: _ => o
  let params := if o.RecordLine == "" then params.Set "record_line" "默认"
    else params.Set "record_line" o.RecordLine
  let params := if o.Disable then params.Set "status" "disable"
    else params.Set "status" "enable"
  let params := if o.MX != 0 then params.Set "mx" (strconv.Itoa o.MX) else params
  let params := if o.TTL != 0 then params.Set "ttl" (strconv.Itoa o.TTL) else params
  let params := if o.Weight != 0 then params.Set "weight" (strconv.Itoa o.Weight) else params
  let params := if o.SubDomain != "" then params.Set "sub_domain" o.SubDomain else params
params

/-- Create used to create a DNS record -/
def RecordAPI.Create (p : RecordAPI) (domain : String) (recordType : RType) (value : String)
    (opt : Slice RecordOpt) : Outcome Int :=
  if recordType == "MX" && (match opt with
      | [] => true
      | o :: _ => o.MX == 0) then
    ⟨0, some (errors.New "Need to set up opt.MX"), []⟩
  else
    let params := RecordAPI.Create.params p domain recordType value opt
    let sent := simpleHTTP p.client "POST" "https://dnsapi.cn/Record.Create" params
    match sent.2 with
    | .error err => ⟨0, some err, [sent.1]⟩
    | .ok res =>
        let jsonRes := json.Unmarshal res (Reply.decode "record" Record.decode) ⟨Status.zero, Record.zero⟩
        match jsonRes.2 with
        | some err => ⟨0, some err, [sent.1]⟩
        | none =>
            if jsonRes.1.Status.Code != 1 then
              ⟨0, some (errors.New jsonRes.1.Status.Message), [sent.1]⟩
            else ⟨jsonRes.1.payload.ID, none, [sent.1]⟩

/-- The parameters Modify assembles once the check of opt.MX has passed: the body of Modify
from `params := url.Values{}` to the last `params.Set`. -/
def RecordAPI.Modify.params (p : RecordAPI) (domain : String) (recordID : Int)
    (recordType : RType) (value : String) (opt : Slice RecordOpt) : Values :=
  let params : Values := []
  let params := params.Set "login_token" p.loginToken
  let params := params.Set "format" "json"
  let params := params.Set "domain" domain
  let params := params.Set "record_id" (strconv.Itoa recordID)
  let params := params.Set "record_type" recordType
  let params := params.Set "value" value
  let o : RecordOpt := match opt with
    | [] => RecordOpt.zero
    | o :: _ => o
  let params := if o.RecordLine == "" then params.Set "record_line" "默认"
    else params.Set "record_line" o.RecordLine
  let params := if o.Disable then params.Set "status" "disable"
    else params.Set "status" "enable"
  let params := if o.MX != 0 then params.Set "mx" (strconv.Itoa o.MX) else params
  let params := if o.TTL != 0 then params.Set "ttl" (strconv.Itoa o.TTL) else params
  let params := if o.Weight != 0 then params.Set "weight" (strconv.Itoa o.Weight) else params
  let params := if o.SubDomain != "" then params.Set "sub_domain" o.SubDomain else params
params

/-- Modify used to modify a DNS record -/
def RecordAPI.Modify (p : RecordAPI) (domain : String) (recordID : Int) (recordType : RType)
    (value : String) (opt : Slice RecordOpt) : Outcome Unit :=
  if recordType == "MX" && (match opt with
      | [] => true
      | o :: _ => o.MX == 0) then
    ⟨(), some (errors.New "Need to set up opt.MX"), []⟩
  else
    let params := RecordAPI.Modify.params p domain recordID recordType value opt
    let sent := simpleHTTP p.client "POST" "https://dnsapi.cn/Record.Modify" params
    match sent.2 with
    | .error err => ⟨(), some err, [sent.1]⟩
    | .ok res =>
        let jsonRes := json.Unmarshal res statusOnly Status.zero
        match jsonRes.2 with
        | some err => ⟨(), some err, [sent.1]⟩
        | none =>
            if jsonRes.1.Code != 1 then ⟨(), some (errors.New jsonRes.1.Message), [sent.1]⟩
            else ⟨(), none, [sent.1]⟩

/-- Remove used to remove a DNS record -/
def RecordAPI.Remove (p : RecordAPI) (domain : String) (recordID : Int) : Outcome Unit :=
  let params : Values := []
  let params := params.Set "login_token" p.loginToken
  let params := params.Set "format" "json"
  let params := params.Set "domain" domain
  let params := params.Set "record_id" (strconv.Itoa recordID)
  let sent := simpleHTTP p.client "POST" "https://dnsapi.cn/Record.Remove" params
  match sent.2 with
  | .error err => ⟨(), some err, [sent.1]⟩
  | .ok res =>
      let jsonRes := json.Unmarshal res statusOnly Status.zero
      match jsonRes.2 with
      | some err => ⟨(), some err, [sent.1]⟩
      | none =>
          if jsonRes.1.Code != 1 then ⟨(), some (errors.New jsonRes.1.Message), [sent.1]⟩
          else ⟨(), none, [sent.1]⟩

/-- Remark used to remark a DNS record -/
def RecordAPI.Remark (p : RecordAPI) (domain : String) (recordID : Int) (remark : String) :
    Outcome Unit :=
  let params : Values := []
  let params := params.Set "login_token" p.loginToken
  let params := params.Set "format" "json"
  let params := params.Set "domain" domain
  let params := params.Set "record_id" (strconv.Itoa recordID)
  let params := params.Set "remark" remark
  let sent := simpleHTTP p.client "POST" "https://dnsapi.cn/Record.Remark" params
  match sent.2 with
  | .error err => ⟨(), some err, [sent.1]⟩
  | .ok res =>
      let jsonRes := json.Unmarshal res statusOnly Status.zero
      match jsonRes.2 with
      | some err => ⟨(), some err, [sent.1]⟩
      | none =>
          if jsonRes.1.Code != 1 then ⟨(), some (errors.New jsonRes.1.Message), [sent.1]⟩
          else ⟨(), none, [sent.1]⟩

/-- Info used to get information from recordID -/
def RecordAPI.Info (p : RecordAPI) (domain : String) (recordID : Int) : Outcome Record :=
  let params : Values := []
  let params := params.Set "login_token" p.loginToken
  let params := params.Set "format" "json"
  let params := params.Set "domain" domain
  let params := params.Set "record_id" (strconv.Itoa recordID)
  let sent := simpleHTTP p.client "POST" "https://dnsapi.cn/Record.Info" params
  match sent.2 with
  | .error err => ⟨Record.zero, some err, [sent.1]⟩
  | .ok res =>
      let jsonRes := json.Unmarshal res (Reply.decode "record" Record.decode) ⟨Status.zero, Record.zero⟩
      match jsonRes.2 with
      | some err => ⟨Record.zero, some err, [sent.1]⟩
      | none =>
          if jsonRes.1.Status.Code != 1 then
            ⟨Record.zero, some (errors.New jsonRes.1.Status.Message), [sent.1]⟩
          else ⟨jsonRes.1.payload, none, [sent.1]⟩

/-- Status used to set new status of record -/
def RecordAPI.Status (p : RecordAPI) (domain : String) (recordID : Int) (enable : Enable) :
    Outcome Unit :=
  let params : Values := []
  let params := params.Set "login_token" p.loginToken
  let params := params.Set "format" "json"
  let params := params.Set "domain" domain
  let params := params.Set "record_id" (strconv.Itoa recordID)
  let params := params.Set "status" (Enable.String enable)
  let sent := simpleHTTP p.client "POST" "https://dnsapi.cn/Record.Status" params
  match sent.2 with
  | .error err => ⟨(), some err, [sent.1]⟩
  | .ok res =>
      let jsonRes := json.Unmarshal res statusOnly Status.zero
      match jsonRes.2 with
      | some err => ⟨(), some err, [sent.1]⟩
      | none =>
          if jsonRes.1.Code != 1 then ⟨(), some (errors.New jsonRes.1.Message), [sent.1]⟩
          else ⟨(), none, [sent.1]⟩

/-! ## Domains (domain.go) -/

/-- DomainAPI packaged some dnspod domain APIs -/
structure DomainAPI where
  loginToken : String
  client : Client Body

/-- Domain Details -/
structure Domain where
  ID : Int
  Status : Enable
  Grade : String
  GroupID : Int
  SearchEnginePush : Yes
  IsMark : Yes
  TTL : Int
  CnameSpeedup : Enable
  Remark : String
  CreatedOn : Time
  UpdatedOn : Time
  Punycode : String
  ExtStatus : String
  Name : String
  GradeTitle : String
  IsVIP : Yes
  Owner : String
  Records : Int
  AuthToAnquanbao : Bool
  deriving DecidableEq, Repr

/-- The zero Domain. -/
def Domain.zero : Domain :=
  ⟨0, false, "", 0, false, false, 0, false, "", Time.zero, Time.zero, "", "", "", "", false, "", 0,
    false⟩

/-- One member into a Domain, by the json tags of the struct. -/
def Domain.field (key : String) (v : Json) (d : Domain) : Dec Domain :=
  if keyIs key "id" then (decodeInt "int64" v d.ID).map (fun x => { d with ID := x })
  else if keyIs key "status" then (decodeEnable v).map (fun x => { d with Status := x })
  else if keyIs key "grade" then (decodeString v d.Grade).map (fun x => { d with Grade := x })
  else if keyIs key "group_id" then
    (decodeIntQuoted "int" v d.GroupID).map (fun x => { d with GroupID := x })
  else if keyIs key "searchengine_push" then
    (decodeYes v).map (fun x => { d with SearchEnginePush := x })
  else if keyIs key "is_mark" then (decodeYes v).map (fun x => { d with IsMark := x })
  else if keyIs key "ttl" then (decodeIntQuoted "int" v d.TTL).map (fun x => { d with TTL := x })
  else if keyIs key "cname_speedup" then
    (decodeEnable v).map (fun x => { d with CnameSpeedup := x })
  else if keyIs key "remark" then (decodeString v d.Remark).map (fun x => { d with Remark := x })
  else if keyIs key "created_on" then (decodeTime v).map (fun x => { d with CreatedOn := x })
  else if keyIs key "updated_on" then (decodeTime v).map (fun x => { d with UpdatedOn := x })
  else if keyIs key "punycode" then
    (decodeString v d.Punycode).map (fun x => { d with Punycode := x })
  else if keyIs key "ext_status" then
    (decodeString v d.ExtStatus).map (fun x => { d with ExtStatus := x })
  else if keyIs key "name" then (decodeString v d.Name).map (fun x => { d with Name := x })
  else if keyIs key "grade_title" then
    (decodeString v d.GradeTitle).map (fun x => { d with GradeTitle := x })
  else if keyIs key "is_vip" then (decodeYes v).map (fun x => { d with IsVIP := x })
  else if keyIs key "owner" then (decodeString v d.Owner).map (fun x => { d with Owner := x })
  else if keyIs key "records" then
    (decodeIntQuoted "int" v d.Records).map (fun x => { d with Records := x })
  else if keyIs key "auth_to_anquanbao" then
    (decodeBool v d.AuthToAnquanbao).map (fun x => { d with AuthToAnquanbao := x })
  else Dec.ok d

/-- A JSON value into a Domain. -/
def Domain.decode (v : Json) (d : Domain) : Dec Domain := decodeStruct "dnspod.Domain" Domain.field v d

/-- One member into the struct with the single field ID (`id,string`) that Create decodes
the new domain into. -/
def domainIDField (key : String) (v : Json) (id : Int) : Dec Int :=
  if keyIs key "id" then decodeIntQuoted "int64" v id else Dec.ok id

/-- A JSON value into that struct (held as its ID). -/
def domainID (v : Json) (id : Int) : Dec Int := decodeStruct "struct" domainIDField v id

/-- DomainCreateOpt is Optional arg of Domain.Create -/
structure DomainCreateOpt where
  GroupID : Int
  IsMark : Yes
  deriving DecidableEq, Repr

/-- Create a new domain record -/
def DomainAPI.Create (p : DomainAPI) (domain : String) (opt : Slice DomainCreateOpt) :
    Outcome Int :=
  let params : Values := []
  let params := params.Set "login_token" p.loginToken
  let params := params.Set "format" "json"
  let params := params.Set "domain" domain
  let params := match opt with
    | o :: _ => if o.GroupID != 0 then params.Set "group_id" (strconv.Itoa o.GroupID) else params
    | [] => params
  let params := match opt with
    | o :: _ => if o.IsMark then params.Set "is_mark" (Yes.String o.IsMark) else params
    | [] => params
  let sent := simpleHTTP p.client "POST" "https://dnsapi.cn/Domain.Create" params
  match sent.2 with
  | .error err => ⟨0, some err, [sent.1]⟩
  | .ok res =>
      let jsonRes := json.Unmarshal res (Reply.decode "domain" domainID) ⟨Status.zero, 0⟩
      match jsonRes.2 with
      | some err => ⟨0, some err, [sent.1]⟩
      | none =>
          if jsonRes.1.Status.Code != 1 then
            ⟨0, some (errors.New jsonRes.1.Status.Message), [sent.1]⟩
          else ⟨jsonRes.1.payload, none, [sent.1]⟩

/-- DLType is enum const of DomainListOpt.Type -/
abbrev DLType := String

/-- DomainListOpt is Optional arg of Domain.List -/
structure DomainListOpt where
  Type_ : DLType
  Offset : Int
  Length : Int
  GroupID : Int
  Keyword : String
  deriving DecidableEq, Repr

/-- The zero DomainListOpt. -/
def DomainListOpt.zero : DomainListOpt := ⟨"", 0, 0, 0, ""⟩

/-- List the domain records for the specified optional filter criteria -/
def DomainAPI.List (p : DomainAPI) (opt : Slice DomainListOpt) : Outcome (Slice Domain) :=
  let params : Values := []
  let params := params.Set "login_token" p.loginToken
  let params := params.Set "format" "json"
  let o : DomainListOpt := match opt with
    | [] => DomainListOpt.zero
    | o :: _ => o
  let params := if o.GroupID != 0 then params.Set "group_id" (strconv.Itoa o.GroupID) else params
  let params := if o.Keyword != "" then params.Set "keyword" o.Keyword else params
  let params := if o.Length != 0 then params.Set "length" (strconv.Itoa o.Length) else params
  let params := if o.Offset != 0 then params.Set "offset" (strconv.Itoa o.Offset) else params
  let params := if o.Type_ != "" then params.Set "type" o.Type_ else params
  let sent := simpleHTTP p.client "POST" "https://dnsapi.cn/Domain.List" params
  match sent.2 with
  | .error err => ⟨[], some err, [sent.1]⟩
  | .ok res =>
      let jsonRes := json.Unmarshal res (Reply.decode "domains" (fun v _ => decodeSlice "[]dnspod.Domain" Domain.decode Domain.zero v)) ⟨Status.zero, []⟩
      match jsonRes.2 with
      | some err => ⟨[], some err, [sent.1]⟩
      | none =>
          if jsonRes.1.Status.Code != 1 then
            ⟨[], some (errors.New jsonRes.1.Status.Message), [sent.1]⟩
          else ⟨jsonRes.1.payload, none, [sent.1]⟩

/-- Remove a domain record -/
def DomainAPI.Remove (p : DomainAPI) (domain : String) : Outcome Unit :=
  let params : Values := []
  let params := params.Set "login_token" p.loginToken
  let params := params.Set "format" "json"
  let params := params.Set "domain" domain
  let sent := simpleHTTP p.client "POST" "https://dnsapi.cn/Domain.Remove" params
  match sent.2 with
  | .error err => ⟨(), some err, [sent.1]⟩
  | .ok res =>
      let jsonRes := json.Unmarshal res statusOnly Status.zero
      match jsonRes.2 with
      | some err => ⟨(), some err, [sent.1]⟩
      | none =>
          if jsonRes.1.Code != 1 then ⟨(), some (errors.New jsonRes.1.Message), [sent.1]⟩
          else ⟨(), none, [sent.1]⟩

/-- Status setting a domain enabled or disable -/
def DomainAPI.Status (p : DomainAPI) (domain : String) (enable : Enable) : Outcome Unit :=
  let params : Values := []
  let params := params.Set "login_token" p.loginToken
  let params := params.Set "format" "json"
  let params := params.Set "domain" domain
  let params := params.Set "status" (Enable.String enable)
  let sent := simpleHTTP p.client "POST" "https://dnsapi.cn/Domain.Status" params
  match sent.2 with
  | .error err => ⟨(), some err, [sent.1]⟩
  | .ok res =>
      let jsonRes := json.Unmarshal res statusOnly Status.zero
      match jsonRes.2 with
      | some err => ⟨(), some err, [sent.1]⟩
      | none =>
          if jsonRes.1.Code != 1 then ⟨(), some (errors.New jsonRes.1.Message), [sent.1]⟩
          else ⟨(), none, [sent.1]⟩

/-- Info get a domain record -/
def DomainAPI.Info (p : DomainAPI) (domain : String) : Outcome Domain :=
  let params : Values := []
  let params := params.Set "login_token" p.loginToken
  let params := params.Set "format" "json"
  let params := params.Set "domain" domain
  let sent := simpleHTTP p.client "POST" "https://dnsapi.cn/Domain.Info" params
  match sent.2 with
  | .error err => ⟨Domain.zero, some err, [sent.1]⟩
  | .ok res =>
      let jsonRes := json.Unmarshal res (Reply.decode "domain" Domain.decode) ⟨Status.zero, Domain.zero⟩
      match jsonRes.2 with
      | some err => ⟨Domain.zero, some err, [sent.1]⟩
      | none =>
          if jsonRes.1.Status.Code != 1 then
            ⟨Domain.zero, some (errors.New jsonRes.1.Status.Message), [sent.1]⟩
          else ⟨jsonRes.1.payload, none, [sent.1]⟩

/-- DomainLogOpt is the optional arg of Domain.Log -/
structure DomainLogOpt where
  Offset : Int
  Length : Int
  deriving DecidableEq, Repr

/-- A JSON value into a nil []string. -/
def decodeStrings (v : Json) : Dec (Slice String) := decodeSlice "[]string" decodeString "" v

/-- Log lists the log of the specified domain -/
def DomainAPI.Log (p : DomainAPI) (domain : String) (opt : Slice DomainLogOpt) :
    Outcome (Slice String) :=
  let params : Values := []
  let params := params.Set "login_token" p.loginToken
  let params := params.Set "format" "json"
  let params := params.Set "domain" domain
  let o : DomainLogOpt := match opt with
    | [] => ⟨0, 0⟩
    | o :: _ => o
  let params := if o.Length != 0 then params.Set "length" (strconv.Itoa o.Length) else params
  let params := if o.Offset != 0 then params.Set "offset" (strconv.Itoa o.Offset) else params
  let sent := simpleHTTP p.client "POST" "https://dnsapi.cn/Domain.Log" params
  match sent.2 with
  | .error err => ⟨[], some err, [sent.1]⟩
  | .ok res =>
      let jsonRes := json.Unmarshal res (Reply.decode "log" (fun v _ => decodeStrings v)) ⟨Status.zero, []⟩
      match jsonRes.2 with
      | some err => ⟨[], some err, [sent.1]⟩
      | none =>
          if jsonRes.1.Status.Code != 1 then
            ⟨[], some (errors.New jsonRes.1.Status.Message), [sent.1]⟩
          else ⟨jsonRes.1.payload, none, [sent.1]⟩

/-! ## Users (user.go) -/

/-- User information struct -/
structure User where
  RealName : String
  UserType : String
  Telephone : String
  Nick : String
  ID : Int
  Email : String
  Status : String
  EmailVerified : String
  TelephoneVerified : String
  WeixinBinded : String
  AgentPending : Bool
  Balance : Float32
  Smsbalance : Int
  UserGrade : String
  deriving DecidableEq, Repr

/-- The zero User. -/
def User.zero : User := ⟨"", "", "", "", 0, "", "", "", "", "", false, ⟨"0"⟩, 0, ""⟩

/-- One member into a User, by the json tags of the struct. -/
def User.field (key : String) (v : Json) (u : User) : Dec User :=
  if keyIs key "real_name" then (decodeString v u.RealName).map (fun x => { u with RealName := x })
  else if keyIs key "user_type" then
    (decodeString v u.UserType).map (fun x => { u with UserType := x })
  else if keyIs key "telephone" then
    (decodeString v u.Telephone).map (fun x => { u with Telephone := x })
  else if keyIs key "nick" then (decodeString v u.Nick).map (fun x => { u with Nick := x })
  else if keyIs key "id" then (decodeIntQuoted "int64" v u.ID).map (fun x => { u with ID := x })
  else if keyIs key "email" then (decodeString v u.Email).map (fun x => { u with Email := x })
  else if keyIs key "status" then (decodeString v u.Status).map (fun x => { u with Status := x })
  else if keyIs key "email_verified" then
    (decodeString v u.EmailVerified).map (fun x => { u with EmailVerified := x })
  else if keyIs key "telephone_verified" then
    (decodeString v u.TelephoneVerified).map (fun x => { u with TelephoneVerified := x })
  else if keyIs key "weixin_binded" then
    (decodeString v u.WeixinBinded).map (fun x => { u with WeixinBinded := x })
  else if keyIs key "agent_pending" then
    (decodeBool v u.AgentPending).map (fun x => { u with AgentPending := x })
  else if keyIs key "balance" then (decodeFloat32 v u.Balance).map (fun x => { u with Balance := x })
  else if keyIs key "smsbalance" then
    (decodeInt "int" v u.Smsbalance).map (fun x => { u with Smsbalance := x })
  else if keyIs key "user_grade" then
    (decodeString v u.UserGrade).map (fun x => { u with UserGrade := x })
  else Dec.ok u

/-- A JSON value into a User. -/
def User.decode (v : Json) (u : User) : Dec User := decodeStruct "dnspod.User" User.field v u

/-- One member into the struct with the single field User (`user`) that Detail decodes the
member `info` into. -/
def userInfoField (key : String) (v : Json) (u : User) : Dec User :=
  if keyIs key "user" then User.decode v u else Dec.ok u

/-- A JSON value into that struct (held as its User). -/
def userInfo (v : Json) (u : User) : Dec User := decodeStruct "struct" userInfoField v u

/-- UserAPI packaged some dnspod user APIs -/
structure UserAPI where
  loginToken : String
  client : Client Body

/-- Detail Get Account Detail -/
def UserAPI.Detail (p : UserAPI) : Outcome User :=
  let params : Values := []
  let params := params.Set "login_token" p.loginToken
  let params := params.Set "format" "json"
  let sent := simpleHTTP p.client "POST" "https://dnsapi.cn/User.Detail" params
  match sent.2 with
  | .error err => ⟨User.zero, some err, [sent.1]⟩
  | .ok res =>
      let jsonRes := json.Unmarshal res (Reply.decode "info" userInfo) ⟨Status.zero, User.zero⟩
      match jsonRes.2 with
      | some err => ⟨User.zero, some err, [sent.1]⟩
      | none =>
          if jsonRes.1.Status.Code != 1 then
            ⟨User.zero, some (errors.New jsonRes.1.Status.Message), [sent.1]⟩
          else ⟨jsonRes.1.payload, none, [sent.1]⟩

/-- ModifyDetailOpt is opt arg of User.Modify -/
structure ModifyDetailOpt where
  RealName : String
  Nick : String
  Telephone : String
  deriving DecidableEq, Repr

/-- ModifyDetail use to modify detail of user -/
def UserAPI.ModifyDetail (p : UserAPI) (opt : ModifyDetailOpt) : Outcome Unit :=
  let params : Values := []
  let params := params.Set "login_token" p.loginToken
  let params := params.Set "format" "json"
  let params := if opt.RealName != "" then params.Set "real_name" opt.RealName else params
  let params := if opt.Nick != "" then params.Set "nick" opt.Nick else params
  let params := if opt.Telephone != "" then params.Set "telephone" opt.Telephone else params
  let sent := simpleHTTP p.client "POST" "https://dnsapi.cn/User.Modify" params
  match sent.2 with
  | .error err => ⟨(), some err, [sent.1]⟩
  | .ok res =>
      let jsonRes := json.Unmarshal res statusOnly Status.zero
      match jsonRes.2 with
      | some err => ⟨(), some err, [sent.1]⟩
      | none =>
          if jsonRes.1.Code != 1 then ⟨(), some (errors.New jsonRes.1.Message), [sent.1]⟩
          else ⟨(), none, [sent.1]⟩

/-- ModifyPassword use to modify password of user -/
def UserAPI.ModifyPassword (p : UserAPI) (oldPwd newPwd : String) : Outcome Unit :=
  let params : Values := []
  let params := params.Set "login_token" p.loginToken
  let params := params.Set "format" "json"
  let params := params.Set "old_password" oldPwd
  let params := params.Set "new_password" newPwd
  let sent := simpleHTTP p.client "POST" "https://dnsapi.cn/Userpasswd.Modify" params
  match sent.2 with
  | .error err => ⟨(), some err, [sent.1]⟩
  | .ok res =>
      let jsonRes := json.Unmarshal res statusOnly Status.zero
      match jsonRes.2 with
      | some err => ⟨(), some err, [sent.1]⟩
      | none =>
          if jsonRes.1.Code != 1 then ⟨(), some (errors.New jsonRes.1.Message), [sent.1]⟩
          else ⟨(), none, [sent.1]⟩

/-- ModifyEmail use to modify email of user -/
def UserAPI.ModifyEmail (p : UserAPI) (pwd oldEmail newEmail : String) : Outcome Unit :=
  let params : Values := []
  let params := params.Set "login_token" p.loginToken
  let params := params.Set "format" "json"
  let params := params.Set "password" pwd
  let params := params.Set "old_email" oldEmail
  let params := params.Set "new_email" newEmail
  let sent := simpleHTTP p.client "POST" "https://dnsapi.cn/Useremail.Modify" params
  match sent.2 with
  | .error err => ⟨(), some err, [sent.1]⟩
  | .ok res =>
      let jsonRes := json.Unmarshal res statusOnly Status.zero
      match jsonRes.2 with
      | some err => ⟨(), some err, [sent.1]⟩
      | none =>
          if jsonRes.1.Code != 1 then ⟨(), some (errors.New jsonRes.1.Message), [sent.1]⟩
          else ⟨(), none, [sent.1]⟩

/-- VerifyInfo Verification code and binding information -/
structure VerifyInfo where
  Code : String
  Desc : String
  deriving DecidableEq, Repr

/-- One member into a VerifyInfo. -/
def VerifyInfo.field (key : String) (v : Json) (i : VerifyInfo) : Dec VerifyInfo :=
  if keyIs key "verify_code" then (decodeString v i.Code).map (fun x => { i with Code := x })
  else if keyIs key "verify_desc" then (decodeString v i.Desc).map (fun x => { i with Desc := x })
  else Dec.ok i

/-- A JSON value into a VerifyInfo. -/
def VerifyInfo.decode (v : Json) (i : VerifyInfo) : Dec VerifyInfo :=
  decodeStruct "dnspod.VerifyInfo" VerifyInfo.field v i

/-- PhoneVerify Get cell phone Verification code and binding information -/
def UserAPI.PhoneVerify (p : UserAPI) (phone : String) : Outcome VerifyInfo :=
  let params : Values := []
  let params := params.Set "login_token" p.loginToken
  let params := params.Set "format" "json"
  let params := params.Set "telephone" phone
  let sent := simpleHTTP p.client "POST" "https://dnsapi.cn/Telephoneverify.Code" params
  match sent.2 with
  | .error err => ⟨⟨"", ""⟩, some err, [sent.1]⟩
  | .ok res =>
      let jsonRes := json.Unmarshal res (Reply.decode "user" VerifyInfo.decode) ⟨Status.zero, ⟨"", ""⟩⟩
      match jsonRes.2 with
      | some err => ⟨⟨"", ""⟩, some err, [sent.1]⟩
      | none =>
          if jsonRes.1.Status.Code != 1 then
            ⟨⟨"", ""⟩, some (errors.New jsonRes.1.Status.Message), [sent.1]⟩
          else ⟨jsonRes.1.payload, none, [sent.1]⟩

/-- Log get action logs -/
def UserAPI.Log (p : UserAPI) : Outcome (Slice String) :=
  let params : Values := []
  let params := params.Set "login_token" p.loginToken
  let params := params.Set "format" "json"
  let sent := simpleHTTP p.client "POST" "https://dnsapi.cn/User.Log" params
  match sent.2 with
  | .error err => ⟨[], some err, [sent.1]⟩
  | .ok res =>
      let jsonRes := json.Unmarshal res (Reply.decode "log" (fun v _ => decodeStrings v)) ⟨Status.zero, []⟩
      match jsonRes.2 with
      | some err => ⟨[], some err, [sent.1]⟩
      | none =>
          if jsonRes.1.Status.Code != 1 then
            ⟨[], some (errors.New jsonRes.1.Status.Message), [sent.1]⟩
          else ⟨jsonRes.1.payload, none, [sent.1]⟩

/-! ## The operations that answer by the status of the envelope -/

/-- One call of an operation of the Domain, Record or User group, Record.List apart, with
its arguments. -/
inductive Call where
  | domainCreate (domain : String) (opt : Slice DomainCreateOpt)
  | domainList (opt : Slice DomainListOpt)
  | domainRemove (domain : String)
  | domainStatus (domain : String) (enable : Enable)
  | domainInfo (domain : String)
  | domainLog (domain : String) (opt : Slice DomainLogOpt)
  | recordDDNS (domain : String) (recordID : Int) (opt : Slice DDNSOpt)
  | recordCreate (domain : String) (recordType : RType) (value : String) (opt : Slice RecordOpt)
  | recordModify (domain : String) (recordID : Int) (recordType : RType) (value : String)
      (opt : Slice RecordOpt)
  | recordRemove (domain : String) (recordID : Int)
  | recordRemark (domain : String) (recordID : Int) (remark : String)
  | recordInfo (domain : String) (recordID : Int)
  | recordStatus (domain : String) (recordID : Int) (enable : Enable)
  | userDetail
  | userModifyDetail (opt : ModifyDetailOpt)
  | userModifyPassword (oldPwd newPwd : String)
  | userModifyEmail (pwd oldEmail newEmail : String)
  | userPhoneVerify (phone : String)
  | userLog

/-- The error and the requests of an outcome, without the Go result. -/
def Outcome.errOnly {α : Type} (o : Outcome α) : Outcome Unit := ⟨(), o.err, o.calls⟩

/-- Make the call on the API value built from a login token and a client, as NewDnspod
builds the three of them. -/
def Call.run (loginToken : String) (client : Client Body) : Call → Outcome Unit
  | .domainCreate domain opt => (DomainAPI.Create ⟨loginToken, client⟩ domain opt).errOnly
  | .domainList opt => (DomainAPI.List ⟨loginToken, client⟩ opt).errOnly
  | .domainRemove domain => DomainAPI.Remove ⟨loginToken, client⟩ domain
  | .domainStatus domain enable => DomainAPI.Status ⟨loginToken, client⟩ domain enable
  | .domainInfo domain => (DomainAPI.Info ⟨loginToken, client⟩ domain).errOnly
  | .domainLog domain opt => (DomainAPI.Log ⟨loginToken, client⟩ domain opt).errOnly
  | .recordDDNS domain recordID opt => RecordAPI.DDNS ⟨loginToken, client⟩ domain recordID opt
  | .recordCreate domain recordType value opt =>
      (RecordAPI.Create ⟨loginToken, client⟩ domain recordType value opt).errOnly
  | .recordModify domain recordID recordType value opt =>
      RecordAPI.Modify ⟨loginToken, client⟩ domain recordID recordType value opt
  | .recordRemove domain recordID => RecordAPI.Remove ⟨loginToken, client⟩ domain recordID
  | .recordRemark domain recordID remark =>
      RecordAPI.Remark ⟨loginToken, client⟩ domain recordID remark
  | .recordInfo domain recordID => (RecordAPI.Info ⟨loginToken, client⟩ domain recordID).errOnly
  | .recordStatus domain recordID enable =>
      RecordAPI.Status ⟨loginToken, client⟩ domain recordID enable
  | .userDetail => (UserAPI.Detail ⟨loginToken, client⟩).errOnly
  | .userModifyDetail opt => UserAPI.ModifyDetail ⟨loginToken, client⟩ opt
  | .userModifyPassword oldPwd newPwd => UserAPI.ModifyPassword ⟨loginToken, client⟩ oldPwd newPwd
  | .userModifyEmail pwd oldEmail newEmail =>
      UserAPI.ModifyEmail ⟨loginToken, client⟩ pwd oldEmail newEmail
  | .userPhoneVerify phone => (UserAPI.PhoneVerify ⟨loginToken, client⟩ phone).errOnly
  | .userLog => (UserAPI.Log ⟨loginToken, client⟩).errOnly

/-- The Status and the payload-free part of what json.Unmarshal makes of a body for a jsonRes
with a payload field: the decoded Status and the error of Unmarshal. -/
def unmarshalReply {α : Type} (name : String) (dec : Json → α → Dec α) (zero : α) (res : Body) :
    Status × Option GoError :=
  ((json.Unmarshal res (Reply.decode name dec) ⟨Status.zero, zero⟩).1.Status,
    (json.Unmarshal res (Reply.decode name dec) ⟨Status.zero, zero⟩).2)

/-- What json.Unmarshal makes of a body for the jsonRes of the operation called: the Status
it decodes and the error it returns. -/
def Call.unmarshal : Call → Body → Status × Option GoError
  | .domainCreate _ _, res => unmarshalReply "domain" domainID 0 res
  | .domainList _, res =>
      unmarshalReply "domains" (fun v _ => decodeSlice "[]dnspod.Domain" Domain.decode Domain.zero v)
        [] res
  | .domainInfo _, res => unmarshalReply "domain" Domain.decode Domain.zero res
  | .domainLog _ _, res => unmarshalReply "log" (fun v _ => decodeStrings v) [] res
  | .recordCreate _ _ _ _, res => unmarshalReply "record" Record.decode Record.zero res
  | .recordInfo _ _, res => unmarshalReply "record" Record.decode Record.zero res
  | .userDetail, res => unmarshalReply "info" userInfo User.zero res
  | .userPhoneVerify _, res => unmarshalReply "user" VerifyInfo.decode ⟨"", ""⟩ res
  | .userLog, res => unmarshalReply "log" (fun v _ => decodeStrings v) [] res
  | _, res => json.Unmarshal res statusOnly Status.zero

/-- Does the call pass the local check of its operation. Create and Modify are the only
operations with one, the test of opt.MX for the record type MX; every other call passes. -/
def Call.passesLocalCheck : Call → Bool
  | .recordCreate _ recordType _ opt =>
      !(recordType == "MX" && (match opt with
        | [] => true
        | o :: _ => o.MX == 0))
  | .recordModify _ _ recordType _ opt =>
      !(recordType == "MX" && (match opt with
        | [] => true
        | o :: _ => o.MX == 0))
  | _ => true

/-! ## Sample responses -/

/-- The failure envelope with code 6 and the message "Domain not exist":
the object with the one member status, an object with code "6" and that message. -/
def domainNotExist : Body :=
  .doc (.obj [("status", .obj [("code", .str "6"), ("message", .str "Domain not exist")])])

/-- A client that answers every request with the given body. -/
def answering (body : Body) : Client Body := fun _ => Except.ok body

/-- A success envelope of Record.List with one record, as the service sends it:
status with code "1" and message "Action completed successful", and records, an array of
one object with id "16894439", name "@", type "A", value "1.2.3.4", ttl "600", mx "0". -/
def oneRecordListed : Body :=
  .doc (.obj [("status", .obj [("code", .str "1"), ("message", .str "Action completed successful")]),
    ("records", .arr [.obj [("id", .str "16894439"), ("name", .str "@"), ("type", .str "A"),
      ("value", .str "1.2.3.4"), ("ttl", .str "600"), ("mx", .str "0")]])])

/-- The record of `oneRecordListed` as a Record. -/
def theRecordListed : Record :=
  { Record.zero with ID := 16894439, Name := "@", Type_ := "A", Value := "1.2.3.4", TTL := 600 }

/-- The success envelope of the specification for Record.Create: status with code "1" and
message "OK", and record, an object with id "12345", name "@" and status "enable". -/
def recordCreated : Body :=
  .doc (.obj [("status", .obj [("code", .str "1"), ("message", .str "OK")]),
    ("record", .obj [("id", .str "12345"), ("name", .str "@"), ("status", .str "enable")])])

/-- Zone data without clock changes: every reading is shown, time.Date keeps it. -/
def Zones.steady : Zones := ⟨fun _ c => c, fun _ _ h => h, fun _ _ _ => rfl⟩

/-- One call of each of the nineteen operations, with arguments that pass the local check. -/
def sampleCalls : List Call :=
  [.domainCreate "example.com" [], .domainList [], .domainRemove "example.com",
   .domainStatus "example.com" true, .domainInfo "example.com", .domainLog "example.com" [],
   .recordDDNS "example.com" 12345 [],
   .recordCreate "example.com" RTypeMX "mail.example.com" [⟨"", "", false, 10, 0, 0⟩],
   .recordModify "example.com" 12345 RTypeA "1.2.3.4" [],
   .recordRemove "example.com" 12345, .recordRemark "example.com" 12345 "note",
   .recordInfo "example.com" 12345, .recordStatus "example.com" 12345 false,
   .userDetail, .userModifyDetail ⟨"", "nick", ""⟩, .userModifyPassword "old" "new",
   .userModifyEmail "pwd" "old@example.com" "new@example.com", .userPhoneVerify "13800000000",
   .userLog]

/-- Zone data in which the local clock skips the hour from 02:00:00 on 2015-03-08 (it goes
from 01:59:59 to 03:00:00, the change to daylight time of the zones of the United States):
for a reading in that hour time.Date in time.Local lands one hour earlier. Every other
reading, in every zone, is kept. -/
def Zones.springForward : Zones where
  land := fun l c =>
    if l = Loc.Local ∧ c.year = 2015 ∧ c.month = 3 ∧ c.day = 8 ∧ c.hour = 2 then
      { c with hour := 1 }
    else c
  land_valid := by
    intro l c h
    by_cases hc : l = Loc.Local ∧ c.year = 2015 ∧ c.month = 3 ∧ c.day = 8 ∧ c.hour = 2
    · show (if l = Loc.Local ∧ c.year = 2015 ∧ c.month = 3 ∧ c.day = 8 ∧ c.hour = 2 then
          ({ c with hour := 1 } : Civil) else c).valid = true
      rw [if_pos hc]
      simp only [Civil.valid, Bool.and_eq_true, decide_eq_true_eq] at h ⊢
      omega
    · show (if l = Loc.Local ∧ c.year = 2015 ∧ c.month = 3 ∧ c.day = 8 ∧ c.hour = 2 then
          ({ c with hour := 1 } : Civil) else c).valid = true
      rw [if_neg hc]
      exact h
  land_land := by
    intro l c _
    by_cases hc : l = Loc.Local ∧ c.year = 2015 ∧ c.month = 3 ∧ c.day = 8 ∧ c.hour = 2
    · simp [hc]
    · simp [hc]

/-! ## The facade (dnspod.go)

`MyWANIP` searches the page it fetched with the regular expression `\d+\.\d+\.\d+\.\d+`.
Go's regexp returns the leftmost match, and at that place the match a backtracking search
tries first; `\d` is an ASCII digit and every `\d+` is greedy. The first three groups have to
end where a period follows, so they are whole runs of digits, and the last group takes the
whole run it finds. The page is read as its characters. -/

/-- The class `\d` of Go's regexp: an ASCII decimal digit. -/
def isDecimal (c : Char) : Bool := decide ('0' ≤ c) && decide (c ≤ '9')

/-- The group `\d+` at the front of a text: the run of digits there, which must not be empty,
and the text after it. -/
def digitsPlus (s : List Char) : Option (List Char × List Char) :=
  if (s.takeWhile isDecimal).isEmpty then none
  else some (s.takeWhile isDecimal, s.dropWhile isDecimal)

/-- The period `\.` at the front of a text: the text after it. -/
def period : List Char → Option (List Char)
  | [] => none
  | c :: rest => if c == '.' then some rest else none

/-- A match of `\d+\.\d+\.\d+\.\d+` that starts at the front of the text: the text matched. -/
def matchQuad (s : List Char) : Option (List Char) :=
  match digitsPlus s with
  | none => none
  | some (a, s1) =>
  match period s1 with
  | none => none
  | some s2 =>
  match digitsPlus s2 with
  | none => none
  | some (b, s3) =>
  match period s3 with
  | none => none
  | some s4 =>
  match digitsPlus s4 with
  | none => none
  | some (c, s5) =>
  match period s5 with
  | none => none
  | some s6 =>
  match digitsPlus s6 with
  | none => none
  | some (d, _) => some (a ++ '.' :: (b ++ '.' :: (c ++ '.' :: d)))

/-- Regexp.Find for `\d+\.\d+\.\d+\.\d+`: the match at the first place of the text where one
starts; none where Find returns nil. -/
def findQuad : List Char → Option (List Char)
  | [] => none
  | c :: cs =>
      match matchQuad (c :: cs) with
      | some m => some m
      | none => findQuad cs

set_option linter.dupNamespace false

/-- Dnspod api 1.0. The one http.Client of the Go value is held by what it answers: `client`
for the page MyWANIP fetches, whose body is read as text, and the clients inside the three
API values for the endpoints of the service, whose bodies are read as JSON. -/
structure Dnspod where
  client : Client String
  Record : RecordAPI
  User : UserAPI
  Domain : DomainAPI

/-- NewDnspod creates and initializes a new Dnspod instance; the http.Client it makes is
given by its two readings. -/
def NewDnspod (loginToken : String) (page : Client String) (api : Client Body) : Dnspod :=
  { client := page
    Record := ⟨loginToken, api⟩
    User := ⟨loginToken, api⟩
    Domain := ⟨loginToken, api⟩ }

/-- MyWANIP used to get your WAN IP -/
def Dnspod.MyWANIP (p : Dnspod) : Outcome String :=
  let sent := simpleHTTP p.client "GET" "http://m.tool.chinaz.com/ipsel" []
  match sent.2 with
  | .error err => ⟨"", some err, [sent.1]⟩
  | .ok res =>
      match findQuad res.toList with
      | some m => ⟨String.mk m, none, [sent.1]⟩
      | none => ⟨"", none, [sent.1]⟩

/-- A text of the form digits.digits.digits.digits, one or more decimal digits in each of the
four groups: what the pattern `\d+\.\d+\.\d+\.\d+` matches as a whole. -/
def IsQuad (m : List Char) : Prop :=
  ∃ a b c d : List Char,
    (a ≠ [] ∧ ∀ x ∈ a, isDecimal x = true) ∧ (b ≠ [] ∧ ∀ x ∈ b, isDecimal x = true) ∧
    (c ≠ [] ∧ ∀ x ∈ c, isDecimal x = true) ∧ (d ≠ [] ∧ ∀ x ∈ d, isDecimal x = true) ∧
    m = a ++ '.' :: (b ++ '.' :: (c ++ '.' :: d))

/-- A client of the IP page that answers every request with the given text. -/
def showing (page : String) : Client String := fun _ => Except.ok page

/-- The success envelope without a payload: status with code "1" and message
"Action completed successful". -/
def actionDone : Body :=
  .doc (.obj [("status", .obj [("code", .str "1"), ("message", .str "Action completed successful")])])

/-- The specification's wording of what Modify transmits: the parameters Create transmits for
the same arguments, and record_id, the record ID in decimal. To be compared with
`RecordAPI.Modify.params`, which is the code. -/
def RecordAPI.Modify.paramsBySpec (p : RecordAPI) (domain : String) (recordID : Int)
    (recordType : RType) (value : String) (opt : Slice RecordOpt) : Values :=
  (RecordAPI.Create.params p domain recordType value opt).Set "record_id" (strconv.Itoa recordID)

/-! ## Lemmas on the timestamp text -/

theorem digit_facts : ∀ k, k < 10 →
    (decide ('0' ≤ Char.ofNat (48 + k)) && decide (Char.ofNat (48 + k) ≤ '9')) = true ∧
    (Char.ofNat (48 + k)).toNat - 48 = k ∧
    Char.ofNat (48 + k) ≠ ' ' ∧ Char.ofNat (48 + k) ≠ dq := by
  decide

theorem digit_range (n : Nat) : (decide ('0' ≤ digit n) && decide (digit n ≤ '9')) = true :=
  (digit_facts (n % 10) (Nat.mod_lt n (by decide))).1

theorem digit_toNat (n : Nat) : (digit n).toNat - 48 = n % 10 :=
  (digit_facts (n % 10) (Nat.mod_lt n (by decide))).2.1

theorem digit_ne_space (n : Nat) : digit n ≠ ' ' :=
  (digit_facts (n % 10) (Nat.mod_lt n (by decide))).2.2.1

theorem isDigit_zero (n : Nat) (rest : List Char) : isDigit (digit n :: rest) 0 = true := by
  simp only [isDigit, List.get?_cons_zero]
  exact digit_range n

theorem isDigit_one (c : Char) (n : Nat) (rest : List Char) :
    isDigit (c :: digit n :: rest) 1 = true := by
  simp only [isDigit, List.get?_cons_succ, List.get?_cons_zero]
  exact digit_range n

theorem getnum_two (a b : Nat) (rest : List Char) (fixed : Bool) :
    getnum (digit a :: digit b :: rest) fixed = some (a % 10 * 10 + b % 10, rest) := by
  simp [getnum, isDigit_zero, isDigit_one, digit_toNat]

theorem atoi_four (a b c d : Nat) :
    atoi [digit a, digit b, digit c, digit d] =
      some (1000 * (a % 10) + 100 * (b % 10) + 10 * (c % 10) + d % 10) := by
  have ha := digit_range a
  have hb := digit_range b
  have hc := digit_range c
  have hd := digit_range d
  simp only [Bool.and_eq_true, decide_eq_true_eq] at ha hb hc hd
  simp [atoi, digit_toNat, ha, hb, hc, hd]
  ring

theorem skip_same (c : Char) (rest : List Char) (h : c ≠ ' ') : skip (c :: rest) [c] = some rest := by
  simp [skip, skipLoop, h]

theorem skip_space (c : Char) (rest : List Char) (h : c ≠ ' ') :
    skip (' ' :: c :: rest) [' '] = some (c :: rest) := by
  have hc : (c == ' ') = false := by simpa using h
  simp [skip, skipLoop, cutspace, List.dropWhile, hc]

theorem decimalLoop_small (fuel u : Nat) (acc : List Char) (h : u < 10) :
    decimalLoop (fuel + 1) u acc = digit u :: acc := by
  have h1 : ¬ (10 ≤ u) := by omega
  simp only [decimalLoop, h1, if_false]

theorem decimalLoop_step (fuel u : Nat) (acc : List Char) (h : 10 ≤ u) :
    decimalLoop (fuel + 1) u acc = decimalLoop fuel (u / 10) (digit u :: acc) := by
  simp only [decimalLoop, h, if_true]

theorem decimal_two (n : Nat) (h : n < 100) :
    List.replicate (2 - (decimalLoop 20 n []).length) '0' ++ decimalLoop 20 n [] =
      [digit (n / 10), digit n] := by
  have h4 : digit 0 = '0' := by decide
  by_cases h1 : 10 ≤ n
  · rw [decimalLoop_step 19 n [] h1, decimalLoop_small 18 (n / 10) _ (by omega)]
    rfl
  · rw [decimalLoop_small 19 n [] (by omega)]
    have h3 : n / 10 = 0 := by omega
    rw [h3, h4]
    rfl

theorem decimal_four (n : Nat) (h : n < 10000) :
    List.replicate (4 - (decimalLoop 20 n []).length) '0' ++ decimalLoop 20 n [] =
      [digit (n / 1000), digit (n / 100), digit (n / 10), digit n] := by
  have h4 : digit 0 = '0' := by decide
  have e1 : n / 10 / 10 = n / 100 := by omega
  have e2 : n / 100 / 10 = n / 1000 := by omega
  by_cases h1 : 10 ≤ n
  · rw [decimalLoop_step 19 n [] h1]
    by_cases h2 : 10 ≤ n / 10
    · rw [decimalLoop_step 18 (n / 10) _ h2, e1]
      by_cases h3 : 10 ≤ n / 100
      · rw [decimalLoop_step 17 (n / 100) _ h3, e2,
          decimalLoop_small 16 (n / 1000) _ (by omega)]
        rfl
      · rw [decimalLoop_small 17 (n / 100) _ (by omega)]
        have e3 : n / 1000 = 0 := by omega
        rw [e3, h4]
        rfl
    · rw [decimalLoop_small 18 (n / 10) _ (by omega)]
      have e3 : n / 1000 = 0 := by omega
      have e4 : n / 100 = 0 := by omega
      rw [e3, e4, h4]
      rfl
  · rw [decimalLoop_small 19 n [] (by omega)]
    have e3 : n / 1000 = 0 := by omega
    have e4 : n / 100 = 0 := by omega
    have e5 : n / 10 = 0 := by omega
    rw [e3, e4, e5, h4]
    rfl

theorem appendInt_two (b : List Char) (n : Nat) (h : n < 100) :
    appendInt b (Int.ofNat n) 2 = b ++ [digit (n / 10), digit n] := by
  have h0 : ¬ ((Int.ofNat n) < 0) := by simp
  have h5 : (Int.ofNat n).natAbs = n := rfl
  simp only [appendInt, h0, if_false, List.append_nil, h5, List.append_assoc]
  rw [decimal_two n h]

theorem appendInt_four (b : List Char) (n : Nat) (h : n < 10000) :
    appendInt b (Int.ofNat n) 4 =
      b ++ [digit (n / 1000), digit (n / 100), digit (n / 10), digit n] := by
  have h0 : ¬ ((Int.ofNat n) < 0) := by simp
  have h5 : (Int.ofNat n).natAbs = n := rfl
  simp only [appendInt, h0, if_false, List.append_nil, h5, List.append_assoc]
  rw [decimal_four n h]

/-- Parsing the text that the layout writes for a reading gives the reading back. -/
theorem parseLayout_appendFormat (c : Civil) (hv : c.valid = true)
    (h0 : 0 ≤ c.year) (h1 : c.year ≤ 9999) :
    parseLayout (appendFormat [dq] c ++ [dq]) = some (c, 0) := by
  obtain ⟨year, month, day, hour, min, sec⟩ := c
  simp only at h0 h1
  obtain ⟨y, rfl⟩ := Int.eq_ofNat_of_zero_le h0
  simp only [Civil.valid, Bool.and_eq_true, decide_eq_true_eq] at hv
  obtain ⟨⟨⟨⟨⟨⟨hm1, hm2⟩, hd1⟩, hd2⟩, hh⟩, hmi⟩, hs⟩ := hv
  have hy : y < 10000 := by omega
  have hd3 : day < 100 := by
    have : daysIn month (y : Int) ≤ 31 := by
      unfold daysIn; split_ifs <;> omega
    omega
  have e : appendFormat [dq] ⟨(y : Int), month, day, hour, min, sec⟩ ++ [dq] =
      dq :: digit (y / 1000) :: digit (y / 100) :: digit (y / 10) :: digit y :: '-' ::
        digit (month / 10) :: digit month :: '-' :: digit (day / 10) :: digit day :: ' ' ::
        digit (hour / 10) :: digit hour :: ':' :: digit (min / 10) :: digit min :: ':' ::
        digit (sec / 10) :: digit sec :: [dq] := by
    simp only [appendFormat]
    rw [show ((y : Int)) = Int.ofNat y from rfl, appendInt_four _ y hy,
      show ((month : Int)) = Int.ofNat month from rfl, appendInt_two _ month (by omega),
      show ((day : Int)) = Int.ofNat day from rfl, appendInt_two _ day hd3,
      show ((hour : Int)) = Int.ofNat hour from rfl, appendInt_two _ hour (by omega),
      show ((min : Int)) = Int.ofNat min from rfl, appendInt_two _ min (by omega),
      show ((sec : Int)) = Int.ofNat sec from rfl, appendInt_two _ sec (by omega)]
    simp
  rw [e]
  have hdq : dq ≠ ' ' := by decide
  have s1 := fun rest => skip_same dq rest hdq
  have s2 := fun rest => skip_same '-' rest (by decide)
  have s3 := fun rest => skip_same ':' rest (by decide)
  have s4 := fun n rest => skip_space (digit n) rest (digit_ne_space n)
  have ey : 1000 * (y / 1000 % 10) + 100 * (y / 100 % 10) + 10 * (y / 10 % 10) + y % 10 = y := by
    omega
  have em : month / 10 % 10 * 10 + month % 10 = month := by omega
  have ed : day / 10 % 10 * 10 + day % 10 = day := by omega
  have eh : hour / 10 % 10 * 10 + hour % 10 = hour := by omega
  have emi : min / 10 % 10 * 10 + min % 10 = min := by omega
  have es : sec / 10 % 10 * 10 + sec % 10 = sec := by omega
  have hf : fraction [dq] = (0, [dq]) := by decide
  have c1 : ¬ (month ≤ 0) := by omega
  have c2 : ¬ (12 < month) := by omega
  have c3 : ¬ (24 ≤ hour) := by omega
  have c4 : ¬ (60 ≤ min) := by omega
  have c5 : ¬ (60 ≤ sec) := by omega
  have c6 : ¬ (day < 1) := by omega
  have c7 : ¬ (daysIn month (Int.ofNat y) < day) := by
    have : daysIn month (Int.ofNat y) = daysIn month (y : Int) := rfl
    omega
  simp only [parseLayout, s1, s2, s3, s4, isDigit_zero, getnum_two, atoi_four, List.take,
    List.drop, List.length_cons, List.length_nil, ey, em, ed, eh, emi, es, hf, c1, c2, c3, c4,
    c5, c6, c7, decide_False, Bool.or_false, Bool.not_true, Bool.false_eq_true, if_false,
    List.isEmpty, Bool.not_false, Nat.reduceAdd, Nat.reduceLT]
  rfl


/-! ## Lemmas on url.Values -/

theorem Values.lookup_Set_same (v : Values) (k x : String) : (Values.Set v k x).lookup k = some x := by
  unfold Values.Set Values.lookup
  induction v with
  | nil => simp
  | cons kv rest ih =>
      by_cases h : kv.1 = k
      · simp [h]
      · by_cases h2 : rest.any (fun kv => kv.1 == k) = true
        · simp only [h2, if_true] at ih
          simp [h, h2, List.find?, ih]
          simpa using ih
        · simp only [h2, Bool.false_eq_true, if_false] at ih
          simp only [Bool.not_eq_true] at h2
          simp [h, h2, List.find?]
          simpa using ih

theorem Values.lookup_Set_other (v : Values) (k k2 x : String) (h : k2 ≠ k) :
    (Values.Set v k2 x).lookup k = v.lookup k := by
  have hk : (k2 == k) = false := by simpa using h
  have hmap : ∀ l : Values,
      ((l.map (fun kv => if kv.1 == k2 then (k2, x) else kv)).find? (fun kv => kv.1 == k)).map
          (fun kv => kv.2) = (l.find? (fun kv => kv.1 == k)).map (fun kv => kv.2) := by
    intro l
    induction l with
    | nil => rfl
    | cons kv rest ih =>
        by_cases h1 : kv.1 = k2
        · have h3 : (kv.1 == k) = false := by rw [h1]; exact hk
          simp only [List.map_cons, h1, beq_self_eq_true, if_true, List.find?_cons, hk, h3]
          exact ih
        · have h4 : (kv.1 == k2) = false := by simpa using h1
          simp only [List.map_cons, h4, Bool.false_eq_true, if_false, List.find?_cons]
          cases h5 : (kv.1 == k)
          · exact ih
          · rfl
  unfold Values.Set Values.lookup
  split
  · exact hmap v
  · rw [List.find?_append]
    simp only [List.find?_cons, hk, List.find?_nil]
    cases List.find? (fun kv => kv.1 == k) v <;> rfl

theorem Values.lookup_ite_other (c : Prop) [Decidable c] (v : Values) (k k2 x : String)
    (h : k2 ≠ k) : (if c then Values.Set v k2 x else v).lookup k = v.lookup k := by
  split
  · exact Values.lookup_Set_other v k k2 x h
  · rfl

theorem Values.lookup_ite_both (c : Prop) [Decidable c] (v : Values) (k k2 x y : String)
    (h : k2 ≠ k) :
    (if c then Values.Set v k2 x else Values.Set v k2 y).lookup k = v.lookup k := by
  split <;> exact Values.lookup_Set_other v k k2 _ h

/-- What Create does once the check of opt.MX has passed. -/
theorem Create_accepted (p : RecordAPI) (domain : String) (recordType : RType) (value : String)
    (opt : Slice RecordOpt)
    (h : (recordType == "MX" && (match opt with
      | [] => true
      | o :: _ => o.MX == 0)) = false) :
    (RecordAPI.Create p domain recordType value opt).calls =
      [(simpleHTTP p.client "POST" "https://dnsapi.cn/Record.Create"
        (RecordAPI.Create.params p domain recordType value opt)).1] := by
  unfold RecordAPI.Create
  simp only [h, Bool.false_eq_true, if_false]
  split
  · rfl
  · split
    · rfl
    · split <;> rfl

/-- The parameters of Create that do not depend on the options. -/
theorem Create_params_fixed (p : RecordAPI) (domain : String) (recordType : RType)
    (value : String) (opt : Slice RecordOpt) :
    (RecordAPI.Create.params p domain recordType value opt).lookup "login_token" =
      some p.loginToken ∧
    (RecordAPI.Create.params p domain recordType value opt).lookup "format" = some "json" ∧
    (RecordAPI.Create.params p domain recordType value opt).lookup "domain" = some domain ∧
    (RecordAPI.Create.params p domain recordType value opt).lookup "record_type" =
      some recordType ∧
    (RecordAPI.Create.params p domain recordType value opt).lookup "value" = some value := by
  unfold RecordAPI.Create.params
  refine ⟨?_, ?_, ?_, ?_, ?_⟩ <;>
    simp only [Values.lookup_ite_other, Values.lookup_ite_both, Values.lookup_Set_other,
      Values.lookup_Set_same, ne_eq, String.reduceEq, not_false_eq_true]

/-- The parameters of Create that depend on the options `o` in force (the zero RecordOpt when
none is given). -/
theorem Create_params_optional (p : RecordAPI) (domain : String) (recordType : RType)
    (value : String) (opt : Slice RecordOpt) :
    (RecordAPI.Create.params p domain recordType value opt).lookup "sub_domain" =
      (if (opt.headD RecordOpt.zero).SubDomain = "" then none
        else some (opt.headD RecordOpt.zero).SubDomain) ∧
    (RecordAPI.Create.params p domain recordType value opt).lookup "mx" =
      (if (opt.headD RecordOpt.zero).MX = 0 then none
        else some (strconv.Itoa (opt.headD RecordOpt.zero).MX)) ∧
    (RecordAPI.Create.params p domain recordType value opt).lookup "ttl" =
      (if (opt.headD RecordOpt.zero).TTL = 0 then none
        else some (strconv.Itoa (opt.headD RecordOpt.zero).TTL)) ∧
    (RecordAPI.Create.params p domain recordType value opt).lookup "weight" =
      (if (opt.headD RecordOpt.zero).Weight = 0 then none
        else some (strconv.Itoa (opt.headD RecordOpt.zero).Weight)) ∧
    (RecordAPI.Create.params p domain recordType value opt).lookup "status" =
      (if (opt.headD RecordOpt.zero).Disable = true then some "disable" else some "enable") ∧
    (RecordAPI.Create.params p domain recordType value opt).lookup "record_line" =
      (if (opt.headD RecordOpt.zero).RecordLine = "" then some "默认"
        else some (opt.headD RecordOpt.zero).RecordLine) := by
  have hnil : ∀ k : String, Values.lookup [] k = none := fun _ => rfl
  unfold RecordAPI.Create.params
  cases opt with
  | nil =>
      refine ⟨?_, ?_, ?_, ?_, ?_, ?_⟩ <;>
        simp only [List.headD_nil, RecordOpt.zero, bne_self_eq_false, beq_self_eq_true,
          Bool.false_eq_true, if_true, if_false, Values.lookup_Set_other,
          Values.lookup_Set_same, ne_eq, String.reduceEq, not_false_eq_true, hnil]
  | cons o rest =>
      simp only [List.headD_cons, bne_iff_ne, ne_eq, beq_iff_eq]
      refine ⟨?_, ?_, ?_, ?_, ?_, ?_⟩
      · by_cases h : o.SubDomain = "" <;>
          simp only [h, not_true_eq_false, not_false_eq_true, if_true, if_false,
            Values.lookup_ite_other, Values.lookup_ite_both,
            Values.lookup_Set_other, Values.lookup_Set_same, ne_eq, String.reduceEq, hnil]
      · by_cases h : o.MX = 0 <;>
          simp only [h, not_true_eq_false, not_false_eq_true, if_true, if_false,
            Values.lookup_ite_other, Values.lookup_ite_both,
            Values.lookup_Set_other, Values.lookup_Set_same, ne_eq, String.reduceEq, hnil]
      · by_cases h : o.TTL = 0 <;>
          simp only [h, not_true_eq_false, not_false_eq_true, if_true, if_false,
            Values.lookup_ite_other, Values.lookup_ite_both,
            Values.lookup_Set_other, Values.lookup_Set_same, ne_eq, String.reduceEq, hnil]
      · by_cases h : o.Weight = 0 <;>
          simp only [h, not_true_eq_false, not_false_eq_true, if_true, if_false,
            Values.lookup_ite_other, Values.lookup_ite_both,
            Values.lookup_Set_other, Values.lookup_Set_same, ne_eq, String.reduceEq, hnil]
      · by_cases h : o.Disable = true <;>
          simp only [h, not_true_eq_false, not_false_eq_true, if_true, if_false,
            Values.lookup_ite_other, Values.lookup_ite_both, Bool.false_eq_true,
            Values.lookup_Set_other, Values.lookup_Set_same, ne_eq, String.reduceEq, hnil]
      · by_cases h : o.RecordLine = "" <;>
          simp only [h, not_true_eq_false, not_false_eq_true, if_true, if_false,
            Values.lookup_ite_other, Values.lookup_ite_both, Bool.false_eq_true,
            Values.lookup_Set_other, Values.lookup_Set_same, ne_eq, String.reduceEq, hnil]

/-- The parameters of Modify that depend on the options `o` in force (the zero RecordOpt when
none is given). -/
theorem Modify_params_optional (p : RecordAPI) (domain : String) (recordID : Int)
    (recordType : RType)
    (value : String) (opt : Slice RecordOpt) :
    (RecordAPI.Modify.params p domain recordID recordType value opt).lookup "sub_domain" =
      (if (opt.headD RecordOpt.zero).SubDomain = "" then none
        else some (opt.headD RecordOpt.zero).SubDomain) ∧
    (RecordAPI.Modify.params p domain recordID recordType value opt).lookup "mx" =
      (if (opt.headD RecordOpt.zero).MX = 0 then none
        else some (strconv.Itoa (opt.headD RecordOpt.zero).MX)) ∧
    (RecordAPI.Modify.params p domain recordID recordType value opt).lookup "ttl" =
      (if (opt.headD RecordOpt.zero).TTL = 0 then none
        else some (strconv.Itoa (opt.headD RecordOpt.zero).TTL)) ∧
    (RecordAPI.Modify.params p domain recordID recordType value opt).lookup "weight" =
      (if (opt.headD RecordOpt.zero).Weight = 0 then none
        else some (strconv.Itoa (opt.headD RecordOpt.zero).Weight)) ∧
    (RecordAPI.Modify.params p domain recordID recordType value opt).lookup "status" =
      (if (opt.headD RecordOpt.zero).Disable = true then some "disable" else some "enable") ∧
    (RecordAPI.Modify.params p domain recordID recordType value opt).lookup "record_line" =
      (if (opt.headD RecordOpt.zero).RecordLine = "" then some "默认"
        else some (opt.headD RecordOpt.zero).RecordLine) := by
  have hnil : ∀ k : String, Values.lookup [] k = none := fun _ => rfl
  unfold RecordAPI.Modify.params
  cases opt with
  | nil =>
      refine ⟨?_, ?_, ?_, ?_, ?_, ?_⟩ <;>
        simp only [List.headD_nil, RecordOpt.zero, bne_self_eq_false, beq_self_eq_true,
          Bool.false_eq_true, if_true, if_false, Values.lookup_Set_other,
          Values.lookup_Set_same, ne_eq, String.reduceEq, not_false_eq_true, hnil]
  | cons o rest =>
      simp only [List.headD_cons, bne_iff_ne, ne_eq, beq_iff_eq]
      refine ⟨?_, ?_, ?_, ?_, ?_, ?_⟩
      · by_cases h : o.SubDomain = "" <;>
          simp only [h, not_true_eq_false, not_false_eq_true, if_true, if_false,
            Values.lookup_ite_other, Values.lookup_ite_both,
            Values.lookup_Set_other, Values.lookup_Set_same, ne_eq, String.reduceEq, hnil]
      · by_cases h : o.MX = 0 <;>
          simp only [h, not_true_eq_false, not_false_eq_true, if_true, if_false,
            Values.lookup_ite_other, Values.lookup_ite_both,
            Values.lookup_Set_other, Values.lookup_Set_same, ne_eq, String.reduceEq, hnil]
      · by_cases h : o.TTL = 0 <;>
          simp only [h, not_true_eq_false, not_false_eq_true, if_true, if_false,
            Values.lookup_ite_other, Values.lookup_ite_both,
            Values.lookup_Set_other, Values.lookup_Set_same, ne_eq, String.reduceEq, hnil]
      · by_cases h : o.Weight = 0 <;>
          simp only [h, not_true_eq_false, not_false_eq_true, if_true, if_false,
            Values.lookup_ite_other, Values.lookup_ite_both,
            Values.lookup_Set_other, Values.lookup_Set_same, ne_eq, String.reduceEq, hnil]
      · by_cases h : o.Disable = true <;>
          simp only [h, not_true_eq_false, not_false_eq_true, if_true, if_false,
            Values.lookup_ite_other, Values.lookup_ite_both, Bool.false_eq_true,
            Values.lookup_Set_other, Values.lookup_Set_same, ne_eq, String.reduceEq, hnil]
      · by_cases h : o.RecordLine = "" <;>
          simp only [h, not_true_eq_false, not_false_eq_true, if_true, if_false,
            Values.lookup_ite_other, Values.lookup_ite_both, Bool.false_eq_true,
            Values.lookup_Set_other, Values.lookup_Set_same, ne_eq, String.reduceEq, hnil]

/-- What Modify does once the check of opt.MX has passed. -/
theorem Modify_accepted (p : RecordAPI) (domain : String) (recordID : Int) (recordType : RType)
    (value : String) (opt : Slice RecordOpt)
    (h : (recordType == "MX" && (match opt with
      | [] => true
      | o :: _ => o.MX == 0)) = false) :
    (RecordAPI.Modify p domain recordID recordType value opt).calls =
      [(simpleHTTP p.client "POST" "https://dnsapi.cn/Record.Modify"
        (RecordAPI.Modify.params p domain recordID recordType value opt)).1] := by
  unfold RecordAPI.Modify
  simp only [h, Bool.false_eq_true, if_false]
  split
  · rfl
  · split
    · rfl
    · split <;> rfl

/-! ## Theorems -/

/-- The steps every operation ends with hand nothing more to the client: the one request
sent before them is the record of the call. -/
theorem statusTail_calls (sent : Request × Except GoError Body) :
    (match sent.2 with
      | .error err => (⟨(), some err, [sent.1]⟩ : Outcome Unit)
      | .ok res =>
          match (json.Unmarshal res statusOnly Status.zero).2 with
          | some err => ⟨(), some err, [sent.1]⟩
          | none =>
              if (json.Unmarshal res statusOnly Status.zero).1.Code != 1 then
                ⟨(), some (errors.New (json.Unmarshal res statusOnly Status.zero).1.Message),
                  [sent.1]⟩
              else ⟨(), none, [sent.1]⟩).calls = [sent.1] := by
  split
  · rfl
  · split
    · rfl
    · split <;> rfl

/-- The steps every operation ends with, for a jsonRes that has the Status only: what they
return for a body that decodes without error. -/
theorem statusTail_result (sent : Request × Except GoError Body) (body : Body) (st : Status)
    (hb : sent.2 = Except.ok body)
    (hdec : json.Unmarshal body statusOnly Status.zero = (st, none)) :
    (match sent.2 with
      | .error err => (⟨(), some err, [sent.1]⟩ : Outcome Unit)
      | .ok res =>
          match (json.Unmarshal res statusOnly Status.zero).2 with
          | some err => ⟨(), some err, [sent.1]⟩
          | none =>
              if (json.Unmarshal res statusOnly Status.zero).1.Code != 1 then
                ⟨(), some (errors.New (json.Unmarshal res statusOnly Status.zero).1.Message),
                  [sent.1]⟩
              else ⟨(), none, [sent.1]⟩).err =
      if st.Code = 1 then none else some (errors.New st.Message) := by
  rw [hb]
  simp only [hdec]
  by_cases h : st.Code = 1 <;> simp [h]

/-- The steps every operation ends with, for a jsonRes with a payload field, hand nothing
more to the client. -/
theorem payloadTail_calls {α β : Type} (sent : Request × Except GoError Body)
    (name : String) (dec : Json → α → Dec α) (zero : α) (rzero : β) (g : α → β) :
    (match sent.2 with
      | .error err => (⟨rzero, some err, [sent.1]⟩ : Outcome β)
      | .ok res =>
          match (json.Unmarshal res (Reply.decode name dec) ⟨Status.zero, zero⟩).2 with
          | some err => ⟨rzero, some err, [sent.1]⟩
          | none =>
              if (json.Unmarshal res (Reply.decode name dec) ⟨Status.zero, zero⟩).1.Status.Code != 1
              then
                ⟨rzero, some (errors.New
                  (json.Unmarshal res (Reply.decode name dec) ⟨Status.zero, zero⟩).1.Status.Message),
                  [sent.1]⟩
              else ⟨g (json.Unmarshal res (Reply.decode name dec) ⟨Status.zero, zero⟩).1.payload,
                none, [sent.1]⟩).calls = [sent.1] := by
  split
  · rfl
  · split
    · rfl
    · split <;> rfl

/-- The steps every operation ends with, for a jsonRes with a payload field: what they
return for a body that decodes without error. -/
theorem payloadTail_result {α β : Type} (sent : Request × Except GoError Body) (body : Body)
    (st : Status) (name : String) (dec : Json → α → Dec α) (zero : α) (rzero : β) (g : α → β)
    (hb : sent.2 = Except.ok body)
    (hdec : unmarshalReply name dec zero body = (st, none)) :
    (match sent.2 with
      | .error err => (⟨rzero, some err, [sent.1]⟩ : Outcome β)
      | .ok res =>
          match (json.Unmarshal res (Reply.decode name dec) ⟨Status.zero, zero⟩).2 with
          | some err => ⟨rzero, some err, [sent.1]⟩
          | none =>
              if (json.Unmarshal res (Reply.decode name dec) ⟨Status.zero, zero⟩).1.Status.Code != 1
              then
                ⟨rzero, some (errors.New
                  (json.Unmarshal res (Reply.decode name dec) ⟨Status.zero, zero⟩).1.Status.Message),
                  [sent.1]⟩
              else ⟨g (json.Unmarshal res (Reply.decode name dec) ⟨Status.zero, zero⟩).1.payload,
                none, [sent.1]⟩).err =
      if st.Code = 1 then none else some (errors.New st.Message) := by
  simp only [unmarshalReply, Prod.mk.injEq] at hdec
  rw [hb]
  simp only [hdec.1, hdec.2]
  by_cases h : st.Code = 1 <;> simp [h]

/-- An error that is errors.New of the message exactly when the code is not 1: it is there
exactly when the code is not 1, and its text is the message. -/
theorem envelope_rule (err : Option GoError) (st : Status)
    (key : err = if st.Code = 1 then none else some (errors.New st.Message)) :
    (err ≠ none ↔ st.Code ≠ 1) ∧
    (∀ e, err = some e → e = errors.New st.Message ∧ e.Error = st.Message) := by
  rw [key]
  by_cases h : st.Code = 1
  · simp [h]
  · simp only [h, if_false]
    refine ⟨by simp [h], ?_⟩
    intro e he
    cases he
    exact ⟨rfl, rfl⟩

/-- C1. For every operation of the Domain, Record and User groups other than Record.List, and
all its arguments that pass the local check: the call hands exactly one request to the
client; and when the client answers that request with a body that json.Unmarshal decodes into
the jsonRes of the operation without error, with status code c and message m, the call
returns an error exactly when c is not 1, and that error is errors.New(m), whose text is m
itself. -/
theorem C1_envelope_code_decides_error (loginToken : String) (client : Client Body) (call : Call)
    (hvalid : call.passesLocalCheck = true) :
    ∃ req : Request, (call.run loginToken client).calls = [req] ∧
      ∀ (body : Body) (st : Status),
        client req = Except.ok body →
        call.unmarshal body = (st, none) →
        ((call.run loginToken client).err ≠ none ↔ st.Code ≠ 1) ∧
        (∀ e, (call.run loginToken client).err = some e →
          e = errors.New st.Message ∧ e.Error = st.Message) := by
  cases call
  case domainCreate domain opt =>
    simp only [Call.run, Call.unmarshal, Outcome.errOnly, DomainAPI.Create]
    generalize hs : simpleHTTP client _ _ _ = sent
    have h2 : sent.2 = client sent.1 := by rw [← hs]; rfl
    refine ⟨sent.1, payloadTail_calls sent _ _ _ _ (fun x => x), ?_⟩
    intro body st hbody hdec
    exact envelope_rule _ st
      (payloadTail_result sent body st _ _ _ _ (fun x => x) (h2.trans hbody) hdec)
  case domainList opt =>
    simp only [Call.run, Call.unmarshal, Outcome.errOnly, DomainAPI.List]
    generalize hs : simpleHTTP client _ _ _ = sent
    have h2 : sent.2 = client sent.1 := by rw [← hs]; rfl
    refine ⟨sent.1, payloadTail_calls sent _ _ _ _ (fun x => x), ?_⟩
    intro body st hbody hdec
    exact envelope_rule _ st
      (payloadTail_result sent body st _ _ _ _ (fun x => x) (h2.trans hbody) hdec)
  case domainRemove domain =>
    simp only [Call.run, Call.unmarshal, DomainAPI.Remove]
    generalize hs : simpleHTTP client _ _ _ = sent
    have h2 : sent.2 = client sent.1 := by rw [← hs]; rfl
    refine ⟨sent.1, statusTail_calls sent, ?_⟩
    intro body st hbody hdec
    exact envelope_rule _ st (statusTail_result sent body st (h2.trans hbody) hdec)
  case domainStatus domain enable =>
    simp only [Call.run, Call.unmarshal, DomainAPI.Status]
    generalize hs : simpleHTTP client _ _ _ = sent
    have h2 : sent.2 = client sent.1 := by rw [← hs]; rfl
    refine ⟨sent.1, statusTail_calls sent, ?_⟩
    intro body st hbody hdec
    exact envelope_rule _ st (statusTail_result sent body st (h2.trans hbody) hdec)
  case domainInfo domain =>
    simp only [Call.run, Call.unmarshal, Outcome.errOnly, DomainAPI.Info]
    generalize hs : simpleHTTP client _ _ _ = sent
    have h2 : sent.2 = client sent.1 := by rw [← hs]; rfl
    refine ⟨sent.1, payloadTail_calls sent _ _ _ _ (fun x => x), ?_⟩
    intro body st hbody hdec
    exact envelope_rule _ st
      (payloadTail_result sent body st _ _ _ _ (fun x => x) (h2.trans hbody) hdec)
  case domainLog domain opt =>
    simp only [Call.run, Call.unmarshal, Outcome.errOnly, DomainAPI.Log]
    generalize hs : simpleHTTP client _ _ _ = sent
    have h2 : sent.2 = client sent.1 := by rw [← hs]; rfl
    refine ⟨sent.1, payloadTail_calls sent _ _ _ _ (fun x => x), ?_⟩
    intro body st hbody hdec
    exact envelope_rule _ st
      (payloadTail_result sent body st _ _ _ _ (fun x => x) (h2.trans hbody) hdec)
  case recordDDNS domain recordID opt =>
    simp only [Call.run, Call.unmarshal, RecordAPI.DDNS]
    generalize hs : simpleHTTP client _ _ _ = sent
    have h2 : sent.2 = client sent.1 := by rw [← hs]; rfl
    refine ⟨sent.1, statusTail_calls sent, ?_⟩
    intro body st hbody hdec
    exact envelope_rule _ st (statusTail_result sent body st (h2.trans hbody) hdec)
  case recordCreate domain recordType value opt =>
    simp only [Call.passesLocalCheck, Bool.not_eq_true'] at hvalid
    simp only [Call.run, Call.unmarshal, Outcome.errOnly, RecordAPI.Create, hvalid,
      Bool.false_eq_true, if_false]
    generalize hs : simpleHTTP client _ _ _ = sent
    have h2 : sent.2 = client sent.1 := by rw [← hs]; rfl
    refine ⟨sent.1, payloadTail_calls sent _ _ _ _ (fun r : Record => r.ID), ?_⟩
    intro body st hbody hdec
    exact envelope_rule _ st
      (payloadTail_result sent body st _ _ _ _ (fun r : Record => r.ID) (h2.trans hbody) hdec)
  case recordModify domain recordID recordType value opt =>
    simp only [Call.passesLocalCheck, Bool.not_eq_true'] at hvalid
    simp only [Call.run, Call.unmarshal, RecordAPI.Modify, hvalid, Bool.false_eq_true, if_false]
    generalize hs : simpleHTTP client _ _ _ = sent
    have h2 : sent.2 = client sent.1 := by rw [← hs]; rfl
    refine ⟨sent.1, statusTail_calls sent, ?_⟩
    intro body st hbody hdec
    exact envelope_rule _ st (statusTail_result sent body st (h2.trans hbody) hdec)
  case recordRemove domain recordID =>
    simp only [Call.run, Call.unmarshal, RecordAPI.Remove]
    generalize hs : simpleHTTP client _ _ _ = sent
    have h2 : sent.2 = client sent.1 := by rw [← hs]; rfl
    refine ⟨sent.1, statusTail_calls sent, ?_⟩
    intro body st hbody hdec
    exact envelope_rule _ st (statusTail_result sent body st (h2.trans hbody) hdec)
  case recordRemark domain recordID remark =>
    simp only [Call.run, Call.unmarshal, RecordAPI.Remark]
    generalize hs : simpleHTTP client _ _ _ = sent
    have h2 : sent.2 = client sent.1 := by rw [← hs]; rfl
    refine ⟨sent.1, statusTail_calls sent, ?_⟩
    intro body st hbody hdec
    exact envelope_rule _ st (statusTail_result sent body st (h2.trans hbody) hdec)
  case recordInfo domain recordID =>
    simp only [Call.run, Call.unmarshal, Outcome.errOnly, RecordAPI.Info]
    generalize hs : simpleHTTP client _ _ _ = sent
    have h2 : sent.2 = client sent.1 := by rw [← hs]; rfl
    refine ⟨sent.1, payloadTail_calls sent _ _ _ _ (fun x => x), ?_⟩
    intro body st hbody hdec
    exact envelope_rule _ st
      (payloadTail_result sent body st _ _ _ _ (fun x => x) (h2.trans hbody) hdec)
  case recordStatus domain recordID enable =>
    simp only [Call.run, Call.unmarshal, RecordAPI.Status]
    generalize hs : simpleHTTP client _ _ _ = sent
    have h2 : sent.2 = client sent.1 := by rw [← hs]; rfl
    refine ⟨sent.1, statusTail_calls sent, ?_⟩
    intro body st hbody hdec
    exact envelope_rule _ st (statusTail_result sent body st (h2.trans hbody) hdec)
  case userDetail  =>
    simp only [Call.run, Call.unmarshal, Outcome.errOnly, UserAPI.Detail]
    generalize hs : simpleHTTP client _ _ _ = sent
    have h2 : sent.2 = client sent.1 := by rw [← hs]; rfl
    refine ⟨sent.1, payloadTail_calls sent _ _ _ _ (fun x => x), ?_⟩
    intro body st hbody hdec
    exact envelope_rule _ st
      (payloadTail_result sent body st _ _ _ _ (fun x => x) (h2.trans hbody) hdec)
  case userModifyDetail opt =>
    simp only [Call.run, Call.unmarshal, UserAPI.ModifyDetail]
    generalize hs : simpleHTTP client _ _ _ = sent
    have h2 : sent.2 = client sent.1 := by rw [← hs]; rfl
    refine ⟨sent.1, statusTail_calls sent, ?_⟩
    intro body st hbody hdec
    exact envelope_rule _ st (statusTail_result sent body st (h2.trans hbody) hdec)
  case userModifyPassword oldPwd newPwd =>
    simp only [Call.run, Call.unmarshal, UserAPI.ModifyPassword]
    generalize hs : simpleHTTP client _ _ _ = sent
    have h2 : sent.2 = client sent.1 := by rw [← hs]; rfl
    refine ⟨sent.1, statusTail_calls sent, ?_⟩
    intro body st hbody hdec
    exact envelope_rule _ st (statusTail_result sent body st (h2.trans hbody) hdec)
  case userModifyEmail pwd oldEmail newEmail =>
    simp only [Call.run, Call.unmarshal, UserAPI.ModifyEmail]
    generalize hs : simpleHTTP client _ _ _ = sent
    have h2 : sent.2 = client sent.1 := by rw [← hs]; rfl
    refine ⟨sent.1, statusTail_calls sent, ?_⟩
    intro body st hbody hdec
    exact envelope_rule _ st (statusTail_result sent body st (h2.trans hbody) hdec)
  case userPhoneVerify phone =>
    simp only [Call.run, Call.unmarshal, Outcome.errOnly, UserAPI.PhoneVerify]
    generalize hs : simpleHTTP client _ _ _ = sent
    have h2 : sent.2 = client sent.1 := by rw [← hs]; rfl
    refine ⟨sent.1, payloadTail_calls sent _ _ _ _ (fun x => x), ?_⟩
    intro body st hbody hdec
    exact envelope_rule _ st
      (payloadTail_result sent body st _ _ _ _ (fun x => x) (h2.trans hbody) hdec)
  case userLog  =>
    simp only [Call.run, Call.unmarshal, Outcome.errOnly, UserAPI.Log]
    generalize hs : simpleHTTP client _ _ _ = sent
    have h2 : sent.2 = client sent.1 := by rw [← hs]; rfl
    refine ⟨sent.1, payloadTail_calls sent _ _ _ _ (fun x => x), ?_⟩
    intro body st hbody hdec
    exact envelope_rule _ st
      (payloadTail_result sent body st _ _ _ _ (fun x => x) (h2.trans hbody) hdec)

/-- C1 at the envelope with code 6 and message "Domain not exist": Domain.Create returns the
error with that text; and so does one call of each of the nineteen operations, each handing
one request to the client. -/
theorem C1_envelope_code_decides_error_witness :
    (Call.domainCreate "example.com" []).passesLocalCheck = true ∧
    (Call.domainCreate "example.com" []).unmarshal domainNotExist =
        (⟨6, "Domain not exist", Time.zero⟩, none) ∧
    ((((Call.domainCreate "example.com" []).run "id,token" (answering domainNotExist)).err ≠ none ↔
        (6 : Int) ≠ 1) ∧
      (∀ e, ((Call.domainCreate "example.com" []).run "id,token"
          (answering domainNotExist)).err = some e →
        e = errors.New "Domain not exist" ∧ e.Error = "Domain not exist")) ∧
    (∀ call ∈ sampleCalls,
      call.passesLocalCheck = true ∧
      (call.run "id,token" (answering domainNotExist)).calls.length = 1 ∧
      (call.run "id,token" (answering domainNotExist)).err =
        some (errors.New "Domain not exist")) :=
  ⟨rfl, by decide,
    (C1_envelope_code_decides_error "id,token" (answering domainNotExist)
      (Call.domainCreate "example.com" []) rfl).elim
      (fun _ h => h.2 domainNotExist ⟨6, "Domain not exist", Time.zero⟩ rfl (by decide)),
    by decide⟩

/-- C2. Record.List on a success envelope (status code 1) that carries a records array of one
record: a decoding into the struct `jsonRes` that List declares finds status code 1 and that
record, yet List, which unmarshals into `list`, returns a json.UnmarshalTypeError and no
record. -/
theorem C2_List_rejects_success_envelope :
    (json.Unmarshal oneRecordListed (Reply.decode "records" (fun v _ => decodeRecords v))
        ⟨Status.zero, []⟩).2 = none ∧
    (json.Unmarshal oneRecordListed (Reply.decode "records" (fun v _ => decodeRecords v))
        ⟨Status.zero, []⟩).1.Status.Code = 1 ∧
    (json.Unmarshal oneRecordListed (Reply.decode "records" (fun v _ => decodeRecords v))
        ⟨Status.zero, []⟩).1.payload = [theRecordListed] ∧
    (RecordAPI.List ⟨"id,token", answering oneRecordListed⟩ "example.com").err =
        some (GoError.unmarshalType "object" "[]dnspod.Record") ∧
    (RecordAPI.List ⟨"id,token", answering oneRecordListed⟩ "example.com").ret = [] := by
  refine ⟨by decide, by decide, by decide, by decide, by decide⟩

/-- C3. Record.List on the failure envelope with code 6 and message "Domain not exist":
the error returned is the json.UnmarshalTypeError of decoding an object into []Record, whose
text is not the message of the envelope. -/
theorem C3_List_drops_envelope_message :
    (RecordAPI.List ⟨"id,token", answering domainNotExist⟩ "example.com").err =
        some (GoError.unmarshalType "object" "[]dnspod.Record") ∧
    (GoError.unmarshalType "object" "[]dnspod.Record").Error =
        "json: cannot unmarshal object into Go value of type []dnspod.Record" ∧
    (GoError.unmarshalType "object" "[]dnspod.Record").Error ≠ "Domain not exist" := by
  refine ⟨by decide, by decide, by decide⟩


/-- C4. Record.Create with record type MX and no MX priority (no options value, or a first
options value whose MX is 0) returns record ID 0 and the validation error
"Need to set up opt.MX", and hands no request to the client, whatever the API value (its
client included), the domain and the value are. -/
theorem C4_Create_MX_without_priority (p : RecordAPI) (domain value : String)
    (opt : Slice RecordOpt)
    (h : opt = [] ∨ ∃ o rest, opt = o :: rest ∧ o.MX = 0) :
    (RecordAPI.Create p domain RTypeMX value opt).ret = 0 ∧
    (RecordAPI.Create p domain RTypeMX value opt).err =
      some (errors.New "Need to set up opt.MX") ∧
    (RecordAPI.Create p domain RTypeMX value opt).calls = [] := by
  rcases h with h | ⟨o, rest, h, hmx⟩
  · subst h
    refine ⟨rfl, rfl, rfl⟩
  · subst h
    unfold RecordAPI.Create
    simp [RTypeMX, hmx]

/-- C4 at the domain "example.com", the value "mail.example.com" and an options value that
sets the TTL only. -/
theorem C4_Create_MX_without_priority_witness :
    (([⟨"", "", false, 0, 600, 0⟩] : Slice RecordOpt) = [] ∨
      ∃ o rest, ([⟨"", "", false, 0, 600, 0⟩] : Slice RecordOpt) = o :: rest ∧ o.MX = 0) ∧
    (RecordAPI.Create ⟨"id,token", answering recordCreated⟩ "example.com" RTypeMX
      "mail.example.com" [⟨"", "", false, 0, 600, 0⟩]).ret = 0 ∧
    (RecordAPI.Create ⟨"id,token", answering recordCreated⟩ "example.com" RTypeMX
      "mail.example.com" [⟨"", "", false, 0, 600, 0⟩]).err =
        some (errors.New "Need to set up opt.MX") ∧
    (RecordAPI.Create ⟨"id,token", answering recordCreated⟩ "example.com" RTypeMX
      "mail.example.com" [⟨"", "", false, 0, 600, 0⟩]).calls = [] :=
  ⟨Or.inr ⟨_, _, rfl, rfl⟩,
    C4_Create_MX_without_priority ⟨"id,token", answering recordCreated⟩ "example.com"
      "mail.example.com" [⟨"", "", false, 0, 600, 0⟩] (Or.inr ⟨_, _, rfl, rfl⟩)⟩


/-- C5, refuted as stated: Record.Create with record type MX and MX priority 21, and again
with -1, is not stopped by a validation error: one request goes to the client with
mx=21 (mx=-1), and with the server answering the success envelope the call returns the new
record ID 12345 and no error. -/
theorem C5_Create_MX_out_of_range_is_sent :
    (RecordAPI.Create ⟨"id,token", answering recordCreated⟩ "example.com" RTypeMX
      "mail.example.com" [⟨"", "", false, 21, 0, 0⟩]).calls.map (fun r => r.form.lookup "mx") =
        [some "21"] ∧
    (RecordAPI.Create ⟨"id,token", answering recordCreated⟩ "example.com" RTypeMX
      "mail.example.com" [⟨"", "", false, 21, 0, 0⟩]).err = none ∧
    (RecordAPI.Create ⟨"id,token", answering recordCreated⟩ "example.com" RTypeMX
      "mail.example.com" [⟨"", "", false, 21, 0, 0⟩]).ret = 12345 ∧
    (RecordAPI.Create ⟨"id,token", answering recordCreated⟩ "example.com" RTypeMX
      "mail.example.com" [⟨"", "", false, -1, 0, 0⟩]).calls.map (fun r => r.form.lookup "mx") =
        [some "-1"] ∧
    (RecordAPI.Create ⟨"id,token", answering recordCreated⟩ "example.com" RTypeMX
      "mail.example.com" [⟨"", "", false, -1, 0, 0⟩]).err = none := by
  refine ⟨by decide, by decide, by decide, by decide, by decide⟩

/-- C5, amended. Record.Create with record type MX fails with the validation error, before
any request, when no options value is given or the MX of the first one is 0; for every other
MX priority, in the range 1..20 or not, it hands exactly one request to the client, the
request to Record.Create with the parameters Create assembles, among them mx in decimal. -/
theorem C5_Create_MX_stops_only_at_zero (p : RecordAPI) (domain value : String) (o : RecordOpt)
    (rest : Slice RecordOpt) :
    ((RecordAPI.Create p domain RTypeMX value []).calls = [] ∧
      (RecordAPI.Create p domain RTypeMX value []).err =
        some (errors.New "Need to set up opt.MX")) ∧
    (o.MX = 0 →
      (RecordAPI.Create p domain RTypeMX value (o :: rest)).calls = [] ∧
      (RecordAPI.Create p domain RTypeMX value (o :: rest)).err =
        some (errors.New "Need to set up opt.MX")) ∧
    (o.MX ≠ 0 →
      (RecordAPI.Create p domain RTypeMX value (o :: rest)).calls =
        [⟨"POST", "https://dnsapi.cn/Record.Create",
          [("User-Agent", "Go DDNS/1.0.0 (bigemon@foxmail.com)"),
           ("Content-Type", "application/x-www-form-urlencoded; charset=utf-8")],
          RecordAPI.Create.params p domain RTypeMX value (o :: rest)⟩] ∧
      (RecordAPI.Create.params p domain RTypeMX value (o :: rest)).lookup "mx" =
        some (strconv.Itoa o.MX)) := by
  refine ⟨⟨rfl, rfl⟩, ?_, ?_⟩
  · intro hmx
    unfold RecordAPI.Create
    simp [RTypeMX, hmx]
  · intro hmx
    have hacc : ((RTypeMX : String) == "MX" && (match (o :: rest : Slice RecordOpt) with
        | [] => true
        | o :: _ => o.MX == 0)) = false := by
      simp [hmx]
    refine ⟨Create_accepted p domain RTypeMX value (o :: rest) hacc, ?_⟩
    have h2 := (Create_params_optional p domain RTypeMX value (o :: rest)).2.1
    simpa [hmx] using h2

/-- C5 amended, at the priorities 0 and 21. -/
theorem C5_Create_MX_stops_only_at_zero_witness :
    ((0 : Int) = 0 ∧
      (RecordAPI.Create ⟨"id,token", answering recordCreated⟩ "example.com" RTypeMX
        "mail.example.com" [⟨"", "", false, 0, 0, 0⟩]).calls = []) ∧
    ((21 : Int) ≠ 0 ∧
      (RecordAPI.Create.params ⟨"id,token", answering recordCreated⟩ "example.com" RTypeMX
        "mail.example.com" [⟨"", "", false, 21, 0, 0⟩]).lookup "mx" = some (strconv.Itoa 21)) :=
  ⟨⟨rfl, ((C5_Create_MX_stops_only_at_zero ⟨"id,token", answering recordCreated⟩ "example.com"
      "mail.example.com" ⟨"", "", false, 0, 0, 0⟩ []).2.1 rfl).1⟩,
    ⟨by decide, ((C5_Create_MX_stops_only_at_zero ⟨"id,token", answering recordCreated⟩
      "example.com" "mail.example.com" ⟨"", "", false, 21, 0, 0⟩ []).2.2 (by decide)).2⟩⟩

/-- C6. Record.Create with type MX, a non-zero MX priority, a value and a domain passes the
local check and hands exactly one request to the client, a POST to Record.Create whose form
parameters hold record_type=MX, mx in decimal, the value, the domain, the login token and
format=json; and when the client answers with a body that json.Unmarshal decodes into jsonRes
without error and with status code 1, the call returns the ID of the decoded record and no
error. -/
theorem C6_Create_MX_request_and_result (p : RecordAPI) (domain value : String) (o : RecordOpt)
    (rest : Slice RecordOpt) (hmx : o.MX ≠ 0) :
    ∃ req : Request,
      (RecordAPI.Create p domain RTypeMX value (o :: rest)).calls = [req] ∧
      req.method = "POST" ∧ req.url = "https://dnsapi.cn/Record.Create" ∧
      req.form.lookup "record_type" = some "MX" ∧
      req.form.lookup "mx" = some (strconv.Itoa o.MX) ∧
      req.form.lookup "value" = some value ∧
      req.form.lookup "domain" = some domain ∧
      req.form.lookup "login_token" = some p.loginToken ∧
      req.form.lookup "format" = some "json" ∧
      ∀ (body : Body) (jsonRes : Reply Record),
        p.client req = Except.ok body →
        json.Unmarshal body (Reply.decode "record" Record.decode) ⟨Status.zero, Record.zero⟩ =
          (jsonRes, none) →
        jsonRes.Status.Code = 1 →
        (RecordAPI.Create p domain RTypeMX value (o :: rest)).ret = jsonRes.payload.ID ∧
        (RecordAPI.Create p domain RTypeMX value (o :: rest)).err = none := by
  have hacc : ((RTypeMX : String) == "MX" && (match (o :: rest : Slice RecordOpt) with
      | [] => true
      | o :: _ => o.MX == 0)) = false := by
    simp [hmx]
  have hfix := Create_params_fixed p domain RTypeMX value (o :: rest)
  have hopt := (Create_params_optional p domain RTypeMX value (o :: rest)).2.1
  refine ⟨(simpleHTTP p.client "POST" "https://dnsapi.cn/Record.Create"
      (RecordAPI.Create.params p domain RTypeMX value (o :: rest))).1,
    Create_accepted p domain RTypeMX value (o :: rest) hacc, rfl, rfl, hfix.2.2.2.1, ?_,
    hfix.2.2.2.2, hfix.2.2.1, hfix.1, hfix.2.1, ?_⟩
  · simpa [hmx] using hopt
  · intro body jsonRes hbody hdec hcode
    have hsnd : (simpleHTTP p.client "POST" "https://dnsapi.cn/Record.Create"
        (RecordAPI.Create.params p domain RTypeMX value (o :: rest))).2 = Except.ok body := hbody
    unfold RecordAPI.Create
    simp only [hacc, Bool.false_eq_true, if_false, hsnd, hdec, hcode, bne_self_eq_false,
      and_self]

/-- C6 at priority 10, value "mail.example.com", domain "example.com" and the success
envelope with record id "12345": the call returns 12345 and no error. -/
theorem C6_Create_MX_request_and_result_witness :
    (10 : Int) ≠ 0 ∧
    (∃ req : Request,
      (RecordAPI.Create ⟨"id,token", answering recordCreated⟩ "example.com" RTypeMX
        "mail.example.com" [⟨"", "", false, 10, 0, 0⟩]).calls = [req] ∧
      req.form.lookup "mx" = some "10") ∧
    (RecordAPI.Create ⟨"id,token", answering recordCreated⟩ "example.com" RTypeMX
      "mail.example.com" [⟨"", "", false, 10, 0, 0⟩]).ret = 12345 ∧
    (RecordAPI.Create ⟨"id,token", answering recordCreated⟩ "example.com" RTypeMX
      "mail.example.com" [⟨"", "", false, 10, 0, 0⟩]).err = none :=
  ⟨by decide,
    (C6_Create_MX_request_and_result ⟨"id,token", answering recordCreated⟩ "example.com"
      "mail.example.com" ⟨"", "", false, 10, 0, 0⟩ [] (by decide)).elim
      (fun req h => ⟨req, h.1, h.2.2.2.2.1⟩),
    by decide, by decide⟩


/-- C7. For each of the adapters Yes, Enable and Enabled and every boolean b: MarshalJSON
gives the quoted wire token of b ("yes"/"no", "enable"/"disable", "1"/"0") and no error, and
UnmarshalJSON of that output gives b back and no error. -/
theorem C7_flag_adapters_round_trip (b : Bool) :
    (Yes.MarshalJSON b = (if b then "\"yes\"" else "\"no\"", none) ∧
      Yes.UnmarshalJSON (Yes.MarshalJSON b).1 = (b, none)) ∧
    (Enable.MarshalJSON b = (if b then "\"enable\"" else "\"disable\"", none) ∧
      Enable.UnmarshalJSON (Enable.MarshalJSON b).1 = (b, none)) ∧
    (Enabled.MarshalJSON b = (if b then "\"1\"" else "\"0\"", none) ∧
      Enabled.UnmarshalJSON (Enabled.MarshalJSON b).1 = (b, none)) := by
  cases b <;> decide

/-- C8, refuted as stated: a timestamp in UTC that reads 2015-03-08 02:30:00, with a
four-digit year and whole seconds, where the local clock skips the hour from 02:00:00 on that
day. Time.MarshalJSON writes the reading of the timestamp in its own zone, and
Time.UnmarshalJSON reads that text in time.Local without error, where time.Date lands on
01:30:00: the timestamp that comes back does not show the hour of the one that went in. -/
theorem C8_Time_skipped_reading_comes_back_changed :
    (⟨⟨2015, 3, 8, 2, 30, 0⟩, 0, Loc.UTC⟩ : Time).civil.valid = true ∧
    (⟨⟨2015, 3, 8, 2, 30, 0⟩, 0, Loc.UTC⟩ : Time).clock Zones.springForward =
      ⟨2015, 3, 8, 2, 30, 0⟩ ∧
    Time.MarshalJSON Zones.springForward ⟨⟨2015, 3, 8, 2, 30, 0⟩, 0, Loc.UTC⟩ =
      ("\"2015-03-08 02:30:00\"", none) ∧
    Time.UnmarshalJSON "\"2015-03-08 02:30:00\"" =
      (⟨⟨2015, 3, 8, 2, 30, 0⟩, 0, Loc.Local⟩, none) ∧
    (⟨⟨2015, 3, 8, 2, 30, 0⟩, 0, Loc.Local⟩ : Time).clock Zones.springForward =
      ⟨2015, 3, 8, 1, 30, 0⟩ ∧
    (Time.UnmarshalJSON
        (Time.MarshalJSON Zones.springForward ⟨⟨2015, 3, 8, 2, 30, 0⟩, 0, Loc.UTC⟩).1).1.clock
        Zones.springForward ≠
      (⟨⟨2015, 3, 8, 2, 30, 0⟩, 0, Loc.UTC⟩ : Time).clock Zones.springForward := by
  refine ⟨by decide, by decide, by decide, by decide, by decide, by decide⟩

/-- C8, amended. Round trip of the timestamp adapter. Let t be a timestamp whose clock
reading has a four-digit year (0..9999), given by in-range arguments of time.Date, and let t
be in time.Local or, if it is in another zone, let its reading be one the local clock shows.
Then Time.MarshalJSON(t) returns no error, Time.UnmarshalJSON of its output returns no error,
and the timestamp it yields is in time.Local and shows the same year, month, day, hour,
minute and second as t. The fraction of a second of t plays no part. -/
theorem C8_Time_round_trip (tz : Zones) (t : Time)
    (hvalid : t.civil.valid = true)
    (hy0 : 0 ≤ (t.clock tz).year) (hy1 : (t.clock tz).year ≤ 9999)
    (hlocal : t.loc = Loc.Local ∨ tz.land Loc.Local (t.clock tz) = t.clock tz) :
    (Time.MarshalJSON tz t).2 = none ∧
    ∃ t2 : Time, Time.UnmarshalJSON (Time.MarshalJSON tz t).1 = (t2, none) ∧
      t2.loc = Loc.Local ∧ t2.clock tz = t.clock tz := by
  have hv : (t.clock tz).valid = true := tz.land_valid t.loc t.civil hvalid
  have hparse := parseLayout_appendFormat (t.clock tz) hv hy0 hy1
  refine ⟨rfl, ⟨t.clock tz, 0, Loc.Local⟩, ?_, rfl, ?_⟩
  · have hdata : ∀ l : List Char, (String.mk l).toList = l := fun _ => rfl
    simp only [Time.UnmarshalJSON, Time.MarshalJSON, hdata, hparse]
  · rcases hlocal with h | h
    · simp only [Time.clock, h]
      exact tz.land_land Loc.Local t.civil hvalid
    · exact h

/-- C8 amended, at 2015-01-18 16:53:23 local time, with zone data without clock changes. -/
theorem C8_Time_round_trip_witness :
    (⟨⟨2015, 1, 18, 16, 53, 23⟩, 0, Loc.Local⟩ : Time).civil.valid = true ∧
    (Time.MarshalJSON Zones.steady ⟨⟨2015, 1, 18, 16, 53, 23⟩, 0, Loc.Local⟩).1 =
      "\"2015-01-18 16:53:23\"" ∧
    (Time.MarshalJSON Zones.steady ⟨⟨2015, 1, 18, 16, 53, 23⟩, 0, Loc.Local⟩).2 = none ∧
    ∃ t2 : Time,
      Time.UnmarshalJSON
        (Time.MarshalJSON Zones.steady ⟨⟨2015, 1, 18, 16, 53, 23⟩, 0, Loc.Local⟩).1 =
          (t2, none) ∧
      t2.loc = Loc.Local ∧
      t2.clock Zones.steady =
        (⟨⟨2015, 1, 18, 16, 53, 23⟩, 0, Loc.Local⟩ : Time).clock Zones.steady :=
  ⟨by decide, by decide,
    C8_Time_round_trip Zones.steady ⟨⟨2015, 1, 18, 16, 53, 23⟩, 0, Loc.Local⟩ (by decide)
      (by decide) (by decide) (Or.inl rfl)⟩

/-- C9. Domain.List with no options argument, or with a first options value that is the
zero DomainListOpt, hands one request to the client whose form parameters are exactly
login_token, with the token, and format=json: type, group_id, keyword, offset and length are
not among them. -/
theorem C9_Domain_List_without_filters (p : DomainAPI) (rest : Slice DomainListOpt) :
    (DomainAPI.List p []).calls =
      [⟨"POST", "https://dnsapi.cn/Domain.List",
        [("User-Agent", "Go DDNS/1.0.0 (bigemon@foxmail.com)"),
         ("Content-Type", "application/x-www-form-urlencoded; charset=utf-8")],
        [("login_token", p.loginToken), ("format", "json")]⟩] ∧
    (DomainAPI.List p (DomainListOpt.zero :: rest)).calls =
      [⟨"POST", "https://dnsapi.cn/Domain.List",
        [("User-Agent", "Go DDNS/1.0.0 (bigemon@foxmail.com)"),
         ("Content-Type", "application/x-www-form-urlencoded; charset=utf-8")],
        [("login_token", p.loginToken), ("format", "json")]⟩] ∧
    ∀ key ∈ ["type", "group_id", "keyword", "offset", "length"],
      Values.Has [("login_token", p.loginToken), ("format", "json")] key = false := by
  have hform : Values.Set (Values.Set [] "login_token" p.loginToken) "format" "json" =
      [("login_token", p.loginToken), ("format", "json")] := by
    simp [Values.Set]
  refine ⟨?_, ?_, ?_⟩
  · simp only [DomainAPI.List, simpleHTTP, DomainListOpt.zero, bne_self_eq_false,
      Bool.false_eq_true, if_false, hform]
    split
    · rfl
    · split
      · rfl
      · split <;> rfl
  · simp only [DomainAPI.List, simpleHTTP, DomainListOpt.zero, bne_self_eq_false,
      Bool.false_eq_true, if_false, hform]
    split
    · rfl
    · split
      · rfl
      · split <;> rfl
  · intro key hkey
    simp only [List.mem_cons, List.mem_singleton, List.not_mem_nil, or_false] at hkey
    rcases hkey with h | h | h | h | h <;> subst h <;> simp [Values.Has]


/-- C10, refuted as stated: Record.Create and Record.Modify called without options, so with
disabled false, send a request that does hold the status parameter, status=enable. -/
theorem C10_status_sent_when_unset :
    (RecordAPI.Create ⟨"id,token", answering recordCreated⟩ "example.com" RTypeA "1.2.3.4"
      []).calls.map (fun r => r.form.lookup "status") = [some "enable"] ∧
    (RecordAPI.Modify ⟨"id,token", answering recordCreated⟩ "example.com" 12345 RTypeA "1.2.3.4"
      []).calls.map (fun r => r.form.lookup "status") = [some "enable"] ∧
    (RecordAPI.Create ⟨"id,token", answering recordCreated⟩ "example.com" RTypeA "1.2.3.4"
      [RecordOpt.zero]).calls.map (fun r => r.form.lookup "status") = [some "enable"] := by
  refine ⟨by decide, by decide, by decide⟩

/-- C10, amended. In every request Record.Create or Record.Modify hands to the client, with o
the first options value (the zero RecordOpt when none is given): sub_domain, mx, ttl and
weight are absent when the option is unset (empty or 0) and hold the option otherwise; status
is always there, "enable" when Disable is false and "disable" when it is true; record_line
is always there, the default line token when RecordLine is empty. -/
theorem C10_unset_options_not_sent (p : RecordAPI) (domain : String) (recordID : Int)
    (recordType : RType) (value : String) (opt : Slice RecordOpt) :
    (∀ req ∈ (RecordAPI.Create p domain recordType value opt).calls,
        req.form.lookup "sub_domain" =
          (if (opt.headD RecordOpt.zero).SubDomain = "" then none else some (opt.headD RecordOpt.zero).SubDomain) ∧
        req.form.lookup "mx" =
          (if (opt.headD RecordOpt.zero).MX = 0 then none else some (strconv.Itoa (opt.headD RecordOpt.zero).MX)) ∧
        req.form.lookup "ttl" =
          (if (opt.headD RecordOpt.zero).TTL = 0 then none else some (strconv.Itoa (opt.headD RecordOpt.zero).TTL)) ∧
        req.form.lookup "weight" =
          (if (opt.headD RecordOpt.zero).Weight = 0 then none else some (strconv.Itoa (opt.headD RecordOpt.zero).Weight)) ∧
        req.form.lookup "status" =
          (if (opt.headD RecordOpt.zero).Disable = true then some "disable" else some "enable") ∧
        req.form.lookup "record_line" =
          (if (opt.headD RecordOpt.zero).RecordLine = "" then some "默认"
            else some (opt.headD RecordOpt.zero).RecordLine)) ∧
    (∀ req ∈ (RecordAPI.Modify p domain recordID recordType value opt).calls,
        req.form.lookup "sub_domain" =
          (if (opt.headD RecordOpt.zero).SubDomain = "" then none else some (opt.headD RecordOpt.zero).SubDomain) ∧
        req.form.lookup "mx" =
          (if (opt.headD RecordOpt.zero).MX = 0 then none else some (strconv.Itoa (opt.headD RecordOpt.zero).MX)) ∧
        req.form.lookup "ttl" =
          (if (opt.headD RecordOpt.zero).TTL = 0 then none else some (strconv.Itoa (opt.headD RecordOpt.zero).TTL)) ∧
        req.form.lookup "weight" =
          (if (opt.headD RecordOpt.zero).Weight = 0 then none else some (strconv.Itoa (opt.headD RecordOpt.zero).Weight)) ∧
        req.form.lookup "status" =
          (if (opt.headD RecordOpt.zero).Disable = true then some "disable" else some "enable") ∧
        req.form.lookup "record_line" =
          (if (opt.headD RecordOpt.zero).RecordLine = "" then some "默认"
            else some (opt.headD RecordOpt.zero).RecordLine)) := by
  constructor
  · cases hacc : (recordType == "MX" && (match opt with
        | [] => true
        | o :: _ => o.MX == 0)) <;> intro req hreq
    · rw [Create_accepted p domain recordType value opt hacc, List.mem_singleton] at hreq
      subst hreq
      exact Create_params_optional p domain recordType value opt
    · have hnone : (RecordAPI.Create p domain recordType value opt).calls = [] := by
        unfold RecordAPI.Create
        simp only [hacc, if_true]
      rw [hnone] at hreq
      cases hreq
  · cases hacc : (recordType == "MX" && (match opt with
        | [] => true
        | o :: _ => o.MX == 0)) <;> intro req hreq
    · rw [Modify_accepted p domain recordID recordType value opt hacc, List.mem_singleton] at hreq
      subst hreq
      exact Modify_params_optional p domain recordID recordType value opt
    · have hnone : (RecordAPI.Modify p domain recordID recordType value opt).calls = [] := by
        unfold RecordAPI.Modify
        simp only [hacc, if_true]
      rw [hnone] at hreq
      cases hreq

/-- C10 amended, at a call of Create that sets the TTL only: the request holds ttl=600 and
status=enable, and no sub_domain, mx or weight. -/
theorem C10_unset_options_not_sent_witness :
    ∃ req : Request,
      req ∈ (RecordAPI.Create ⟨"id,token", answering recordCreated⟩ "example.com" RTypeA
        "1.2.3.4" [⟨"", "", false, 0, 600, 0⟩]).calls ∧
      req.form.lookup "sub_domain" = none ∧ req.form.lookup "mx" = none ∧
      req.form.lookup "ttl" = some "600" ∧ req.form.lookup "weight" = none ∧
      req.form.lookup "status" = some "enable" ∧ req.form.lookup "record_line" = some "默认" :=
  ⟨⟨"POST", "https://dnsapi.cn/Record.Create",
      [("User-Agent", "Go DDNS/1.0.0 (bigemon@foxmail.com)"),
       ("Content-Type", "application/x-www-form-urlencoded; charset=utf-8")],
      RecordAPI.Create.params ⟨"id,token", answering recordCreated⟩ "example.com" RTypeA
        "1.2.3.4" [⟨"", "", false, 0, 600, 0⟩]⟩,
    by decide,
    (C10_unset_options_not_sent ⟨"id,token", answering recordCreated⟩ "example.com" 0 RTypeA
      "1.2.3.4" [⟨"", "", false, 0, 600, 0⟩]).1 _ (by decide)⟩


/-! ## Lemmas on the search for an address -/

theorem digitsPlus_some (s a r : List Char) (h : digitsPlus s = some (a, r)) :
    (a ≠ [] ∧ ∀ x ∈ a, isDecimal x = true) ∧ s = a ++ r := by
  unfold digitsPlus at h
  split at h
  · cases h
  · rename_i hne
    simp only [Option.some.injEq, Prod.mk.injEq] at h
    obtain ⟨h1, h2⟩ := h
    subst h1 h2
    refine ⟨⟨?_, ?_⟩, (List.takeWhile_append_dropWhile isDecimal s).symm⟩
    · intro h0
      rw [h0] at hne
      exact hne rfl
    · intro x hx
      exact List.mem_takeWhile_imp hx

theorem period_some (s r : List Char) (h : period s = some r) : s = '.' :: r := by
  cases s with
  | nil => cases h
  | cons c rest =>
      simp only [period] at h
      split at h
      · rename_i hc
        simp only [Option.some.injEq] at h
        have hc2 : c = '.' := by simpa using hc
        rw [hc2, h]
      · cases h

theorem digitsPlus_run (a r : List Char) (ha : a ≠ [] ∧ ∀ x ∈ a, isDecimal x = true) :
    digitsPlus (a ++ '.' :: r) = some (a, '.' :: r) := by
  have hdot : ¬ (isDecimal '.' = true) := by decide
  have h1 : (a ++ '.' :: r).takeWhile isDecimal = a := by
    rw [List.takeWhile_append_of_pos ha.2, List.takeWhile_cons_of_neg hdot, List.append_nil]
  have h2 : (a ++ '.' :: r).dropWhile isDecimal = '.' :: r := by
    rw [List.dropWhile_append_of_pos ha.2, List.dropWhile_cons_of_neg hdot]
  unfold digitsPlus
  rw [h1, h2]
  cases a with
  | nil => exact absurd rfl ha.1
  | cons x xs => rfl

theorem digitsPlus_front (d post : List Char) (hd : d ≠ [] ∧ ∀ x ∈ d, isDecimal x = true) :
    ∃ e r, digitsPlus (d ++ post) = some (d ++ e, r) := by
  have h1 : (d ++ post).takeWhile isDecimal = d ++ post.takeWhile isDecimal :=
    List.takeWhile_append_of_pos hd.2
  refine ⟨post.takeWhile isDecimal, (d ++ post).dropWhile isDecimal, ?_⟩
  unfold digitsPlus
  rw [h1]
  cases d with
  | nil => exact absurd rfl hd.1
  | cons x xs => rfl

theorem period_cons (r : List Char) : period ('.' :: r) = some r := rfl

/-- A match the search reports is a text of the form, at the front of the text searched. -/
theorem matchQuad_sound (s m : List Char) (h : matchQuad s = some m) :
    IsQuad m ∧ ∃ post, s = m ++ post := by
  unfold matchQuad at h
  cases h1 : digitsPlus s with
  | none => simp [h1] at h
  | some p1 =>
  obtain ⟨a, s1⟩ := p1
  simp only [h1] at h
  cases h2 : period s1 with
  | none => simp [h2] at h
  | some s2 =>
  simp only [h2] at h
  cases h3 : digitsPlus s2 with
  | none => simp [h3] at h
  | some p3 =>
  obtain ⟨b, s3⟩ := p3
  simp only [h3] at h
  cases h4 : period s3 with
  | none => simp [h4] at h
  | some s4 =>
  simp only [h4] at h
  cases h5 : digitsPlus s4 with
  | none => simp [h5] at h
  | some p5 =>
  obtain ⟨c, s5⟩ := p5
  simp only [h5] at h
  cases h6 : period s5 with
  | none => simp [h6] at h
  | some s6 =>
  simp only [h6] at h
  cases h7 : digitsPlus s6 with
  | none => simp [h7] at h
  | some p7 =>
  obtain ⟨d, s7⟩ := p7
  simp only [h7, Option.some.injEq] at h
  have e1 := digitsPlus_some s a s1 h1
  have e2 := period_some s1 s2 h2
  have e3 := digitsPlus_some s2 b s3 h3
  have e4 := period_some s3 s4 h4
  have e5 := digitsPlus_some s4 c s5 h5
  have e6 := period_some s5 s6 h6
  have e7 := digitsPlus_some s6 d s7 h7
  refine ⟨⟨a, b, c, d, e1.1, e3.1, e5.1, e7.1, h.symm⟩, s7, ?_⟩
  rw [e1.2, e2, e3.2, e4, e5.2, e6, e7.2, ← h]
  simp

/-- Where a text of the form starts, the search finds a match at least as long. -/
theorem matchQuad_complete (m2 post : List Char) (h : IsQuad m2) :
    ∃ m, matchQuad (m2 ++ post) = some m ∧ m2.length ≤ m.length := by
  obtain ⟨a, b, c, d, ha, hb, hc, hd, rfl⟩ := h
  obtain ⟨e, r, he⟩ := digitsPlus_front d post hd
  refine ⟨a ++ '.' :: (b ++ '.' :: (c ++ '.' :: (d ++ e))), ?_, ?_⟩
  · have hs : (a ++ '.' :: (b ++ '.' :: (c ++ '.' :: d))) ++ post =
        a ++ '.' :: (b ++ '.' :: (c ++ '.' :: (d ++ post))) := by simp
    rw [hs]
    unfold matchQuad
    simp only [digitsPlus_run a _ ha, period_cons, digitsPlus_run b _ hb, digitsPlus_run c _ hc, he]
  · simp only [List.length_append, List.length_cons]
    omega

/-- What the search over the whole text reports is a text of the form that starts where the
first one starts, and is as long as any that starts there. -/
theorem findQuad_some (s m : List Char) (h : findQuad s = some m) :
    ∃ pre post, s = pre ++ m ++ post ∧ IsQuad m ∧
      (∀ pre2 m2 post2, s = pre2 ++ m2 ++ post2 → IsQuad m2 → pre.length ≤ pre2.length) ∧
      (∀ m2 post2, s = pre ++ m2 ++ post2 → IsQuad m2 → m2.length ≤ m.length) := by
  induction s with
  | nil => cases h
  | cons c cs ih =>
      simp only [findQuad] at h
      cases hm : matchQuad (c :: cs) with
      | some m1 =>
          simp only [hm, Option.some.injEq] at h
          subst h
          obtain ⟨hq, post, hpost⟩ := matchQuad_sound (c :: cs) m1 hm
          refine ⟨[], post, by simpa using hpost, hq, fun _ _ _ _ _ => Nat.zero_le _, ?_⟩
          intro m2 post2 h2 hq2
          obtain ⟨m3, hm3, hlen⟩ := matchQuad_complete m2 post2 hq2
          have h3 : c :: cs = m2 ++ post2 := by simpa using h2
          rw [← h3, hm] at hm3
          cases hm3
          exact hlen
      | none =>
          simp only [hm] at h
          obtain ⟨pre, post, hs, hq, hleft, hlong⟩ := ih h
          refine ⟨c :: pre, post, by simp [hs], hq, ?_, ?_⟩
          · intro pre2 m2 post2 h2 hq2
            cases pre2 with
            | nil =>
                obtain ⟨m3, hm3, _⟩ := matchQuad_complete m2 post2 hq2
                have h3 : c :: cs = m2 ++ post2 := by simpa using h2
                rw [← h3, hm] at hm3
                cases hm3
            | cons x pre3 =>
                have h3 : cs = pre3 ++ m2 ++ post2 := by
                  simp only [List.cons_append, List.cons.injEq] at h2
                  exact h2.2
                have := hleft pre3 m2 post2 h3 hq2
                simp only [List.length_cons]
                omega
          · intro m2 post2 h2 hq2
            have h3 : cs = pre ++ m2 ++ post2 := by
              simp only [List.cons_append, List.cons.injEq, true_and] at h2
              exact h2
            exact hlong m2 post2 h3 hq2

/-- When the search over the whole text reports nothing, no part of the text is of the form. -/
theorem findQuad_none (s : List Char) (h : findQuad s = none) :
    ∀ pre m post, s = pre ++ m ++ post → ¬ IsQuad m := by
  induction s with
  | nil =>
      intro pre m post hs hq
      obtain ⟨a, b, c, d, ha, _, _, _, rfl⟩ := hq
      have hlen := congrArg List.length hs
      simp only [List.length_nil, List.length_append, List.length_cons] at hlen
      omega
  | cons c cs ih =>
      simp only [findQuad] at h
      cases hm : matchQuad (c :: cs) with
      | some m1 => simp [hm] at h
      | none =>
          simp only [hm] at h
          intro pre m post hs hq
          cases pre with
          | nil =>
              obtain ⟨m3, hm3, _⟩ := matchQuad_complete m post hq
              have h3 : c :: cs = m ++ post := by simpa using hs
              rw [← h3, hm] at hm3
              cases hm3
          | cons x pre3 =>
              have h3 : cs = pre3 ++ m ++ post := by
                simp only [List.cons_append, List.cons.injEq] at hs
                exact hs.2
              exact ih h pre3 m post h3 hq

/-- C14. MyWANIP hands one GET request for the IP page to the client. When the client answers
with the body B, the error is nil and: either B has a part of the form
digits.digits.digits.digits (one or more decimal digits per group, no check of the range of
a group), and the result is such a part, the one that starts leftmost in B and, of those
starting there, the longest; or no part of B has that form and the result is the empty
string. -/
theorem C14_MyWANIP_leftmost_quad (p : Dnspod) (B : String)
    (hbody : p.client ⟨"GET", "http://m.tool.chinaz.com/ipsel",
      [("User-Agent", "Go DDNS/1.0.0 (bigemon@foxmail.com)"),
       ("Content-Type", "application/x-www-form-urlencoded; charset=utf-8")], []⟩ =
      Except.ok B) :
    p.MyWANIP.calls = [⟨"GET", "http://m.tool.chinaz.com/ipsel",
      [("User-Agent", "Go DDNS/1.0.0 (bigemon@foxmail.com)"),
       ("Content-Type", "application/x-www-form-urlencoded; charset=utf-8")], []⟩] ∧
    p.MyWANIP.err = none ∧
    ((∃ pre m post, B.toList = pre ++ m ++ post ∧ IsQuad m ∧ p.MyWANIP.ret = String.mk m ∧
        (∀ pre2 m2 post2, B.toList = pre2 ++ m2 ++ post2 → IsQuad m2 →
          pre.length ≤ pre2.length) ∧
        (∀ m2 post2, B.toList = pre ++ m2 ++ post2 → IsQuad m2 → m2.length ≤ m.length)) ∨
      ((∀ pre m post, B.toList = pre ++ m ++ post → ¬ IsQuad m) ∧ p.MyWANIP.ret = "")) := by
  have hsnd : (simpleHTTP p.client "GET" "http://m.tool.chinaz.com/ipsel" []).2 = Except.ok B :=
    hbody
  cases hf : findQuad B.toList with
  | some m =>
      obtain ⟨pre, post, hs, hq, hleft, hlong⟩ := findQuad_some B.toList m hf
      refine ⟨?_, ?_, Or.inl ⟨pre, m, post, hs, hq, ?_, hleft, hlong⟩⟩ <;>
        (simp only [Dnspod.MyWANIP, hsnd, hf]; try rfl)
  | none =>
      refine ⟨?_, ?_, Or.inr ⟨findQuad_none B.toList hf, ?_⟩⟩ <;>
        (simp only [Dnspod.MyWANIP, hsnd, hf]; try rfl)

/-- C14 at a page that holds "999.999.999.999": the result is that text, with no error. -/
theorem C14_MyWANIP_leftmost_quad_witness :
    (NewDnspod "id,token" (showing "your ip: 999.999.999.999, ok") (answering domainNotExist)).client
        ⟨"GET", "http://m.tool.chinaz.com/ipsel",
          [("User-Agent", "Go DDNS/1.0.0 (bigemon@foxmail.com)"),
           ("Content-Type", "application/x-www-form-urlencoded; charset=utf-8")], []⟩ =
      Except.ok "your ip: 999.999.999.999, ok" ∧
    (NewDnspod "id,token" (showing "your ip: 999.999.999.999, ok")
      (answering domainNotExist)).MyWANIP.ret = "999.999.999.999" ∧
    (NewDnspod "id,token" (showing "your ip: 999.999.999.999, ok")
      (answering domainNotExist)).MyWANIP.err = none ∧
    (NewDnspod "id,token" (showing "no address here: 1.2.3.")
      (answering domainNotExist)).MyWANIP.ret = "" ∧
    (NewDnspod "id,token" (showing "no address here: 1.2.3.")
      (answering domainNotExist)).MyWANIP.err = none :=
  ⟨rfl, by decide,
    (C14_MyWANIP_leftmost_quad
      (NewDnspod "id,token" (showing "your ip: 999.999.999.999, ok") (answering domainNotExist))
      "your ip: 999.999.999.999, ok" rfl).2.1,
    by decide, by decide⟩

/-! ## Lemmas on the parameters of the record operations -/

theorem Values.lookup_Set (v : Values) (k k2 x : String) :
    (Values.Set v k2 x).lookup k = if k = k2 then some x else v.lookup k := by
  by_cases h : k = k2
  · subst h
    simp only [if_true]
    exact Values.lookup_Set_same v k x
  · simp only [h, if_false]
    exact Values.lookup_Set_other v k k2 x (fun e => h e.symm)

theorem Values.lookup_ite (c : Prop) [Decidable c] (a b : Values) (k : String) :
    (if c then a else b).lookup k = if c then a.lookup k else b.lookup k := by
  split <;> rfl

/-- The code of Modify assembles the parameters the specification words: key by key, what
Modify holds is what Create holds for the same arguments, with record_id added. -/
theorem Modify_params_refines (p : RecordAPI) (domain : String) (recordID : Int)
    (recordType : RType) (value : String) (opt : Slice RecordOpt) (k : String) :
    (RecordAPI.Modify.params p domain recordID recordType value opt).lookup k =
      (RecordAPI.Modify.paramsBySpec p domain recordID recordType value opt).lookup k := by
  have hnil : Values.lookup [] k = none := rfl
  unfold RecordAPI.Modify.paramsBySpec RecordAPI.Modify.params RecordAPI.Create.params
  simp only [Values.lookup_Set, Values.lookup_ite, hnil]
  by_cases h : k = "record_id"
  · subst h
    simp
  · simp only [h, if_false]

/-- What Create does when the check of opt.MX fails. -/
theorem Create_rejected (p : RecordAPI) (domain : String) (recordType : RType) (value : String)
    (opt : Slice RecordOpt)
    (h : (recordType == "MX" && (match opt with
      | [] => true
      | o :: _ => o.MX == 0)) = true) :
    (RecordAPI.Create p domain recordType value opt).calls = [] ∧
    (RecordAPI.Create p domain recordType value opt).err =
      some (errors.New "Need to set up opt.MX") := by
  unfold RecordAPI.Create
  simp only [h, if_true, and_self]

/-- What Modify does when the check of opt.MX fails. -/
theorem Modify_rejected (p : RecordAPI) (domain : String) (recordID : Int) (recordType : RType)
    (value : String) (opt : Slice RecordOpt)
    (h : (recordType == "MX" && (match opt with
      | [] => true
      | o :: _ => o.MX == 0)) = true) :
    (RecordAPI.Modify p domain recordID recordType value opt).calls = [] ∧
    (RecordAPI.Modify p domain recordID recordType value opt).err =
      some (errors.New "Need to set up opt.MX") := by
  unfold RecordAPI.Modify
  simp only [h, if_true, and_self]

/-- C12. Record.Modify has the contract of Record.Create. For every API value, domain, record
ID, record type, value and options: Modify hands no request to the client (it is stopped by
the local check) exactly when Create hands none, and both then return the error
"Need to set up opt.MX"; and when they are not stopped, the request of Create holds no
record_id, and key by key the parameters of the request of Modify are those of the request of
Create with record_id, the record ID in decimal, added. -/
theorem C12_Modify_has_contract_of_Create (p : RecordAPI) (domain : String) (recordID : Int)
    (recordType : RType) (value : String) (opt : Slice RecordOpt) :
    ((RecordAPI.Modify p domain recordID recordType value opt).calls = [] ↔
      (RecordAPI.Create p domain recordType value opt).calls = []) ∧
    ((RecordAPI.Create p domain recordType value opt).calls = [] →
      (RecordAPI.Create p domain recordType value opt).err =
        some (errors.New "Need to set up opt.MX") ∧
      (RecordAPI.Modify p domain recordID recordType value opt).err =
        some (errors.New "Need to set up opt.MX")) ∧
    (∀ reqC ∈ (RecordAPI.Create p domain recordType value opt).calls,
      ∀ reqM ∈ (RecordAPI.Modify p domain recordID recordType value opt).calls,
        reqC.form.lookup "record_id" = none ∧
        ∀ k, reqM.form.lookup k =
          (Values.Set reqC.form "record_id" (strconv.Itoa recordID)).lookup k) := by
  cases hacc : (recordType == "MX" && (match opt with
      | [] => true
      | o :: _ => o.MX == 0))
  · have hC := Create_accepted p domain recordType value opt hacc
    have hM := Modify_accepted p domain recordID recordType value opt hacc
    refine ⟨?_, ?_, ?_⟩
    · rw [hC, hM]
      simp
    · intro h
      rw [hC] at h
      cases h
    · intro reqC hreqC reqM hreqM
      rw [hC, List.mem_singleton] at hreqC
      rw [hM, List.mem_singleton] at hreqM
      subst hreqC hreqM
      refine ⟨?_, ?_⟩
      · have hnil : Values.lookup [] "record_id" = none := rfl
        simp only [simpleHTTP, RecordAPI.Create.params, Values.lookup_Set, Values.lookup_ite,
          hnil, String.reduceEq, if_false, ite_self]
      · intro k
        exact Modify_params_refines p domain recordID recordType value opt k
  · have hC := Create_rejected p domain recordType value opt hacc
    have hM := Modify_rejected p domain recordID recordType value opt hacc
    refine ⟨?_, ?_, ?_⟩
    · rw [hC.1, hM.1]
    · intro _
      exact ⟨hC.2, hM.2⟩
    · intro reqC hreqC
      rw [hC.1] at hreqC
      cases hreqC

/-- C12 at two calls with the same arguments: of type MX without priority, both stopped; of
type A with TTL 600 and record ID 12345, where the request of Modify holds record_id=12345
and the ttl of the request of Create. -/
theorem C12_Modify_has_contract_of_Create_witness :
    ((RecordAPI.Create ⟨"id,token", answering recordCreated⟩ "example.com" RTypeMX
        "mail.example.com" []).calls = [] ∧
      (RecordAPI.Modify ⟨"id,token", answering actionDone⟩ "example.com" 12345 RTypeMX
        "mail.example.com" []).err = some (errors.New "Need to set up opt.MX")) ∧
    (∃ reqC reqM : Request,
      reqC ∈ (RecordAPI.Create ⟨"id,token", answering actionDone⟩ "example.com" RTypeA
        "1.2.3.4" [⟨"", "", false, 0, 600, 0⟩]).calls ∧
      reqM ∈ (RecordAPI.Modify ⟨"id,token", answering actionDone⟩ "example.com" 12345 RTypeA
        "1.2.3.4" [⟨"", "", false, 0, 600, 0⟩]).calls ∧
      reqC.form.lookup "record_id" = none ∧
      reqM.form.lookup "record_id" = some "12345" ∧
      reqM.form.lookup "ttl" = some "600") :=
  ⟨⟨by decide,
      ((C12_Modify_has_contract_of_Create ⟨"id,token", answering actionDone⟩ "example.com" 12345
        RTypeMX "mail.example.com" []).2.1 (by decide)).2⟩,
    ⟨⟨"POST", "https://dnsapi.cn/Record.Create",
        [("User-Agent", "Go DDNS/1.0.0 (bigemon@foxmail.com)"),
         ("Content-Type", "application/x-www-form-urlencoded; charset=utf-8")],
        RecordAPI.Create.params ⟨"id,token", answering actionDone⟩ "example.com" RTypeA
          "1.2.3.4" [⟨"", "", false, 0, 600, 0⟩]⟩,
      ⟨"POST", "https://dnsapi.cn/Record.Modify",
        [("User-Agent", "Go DDNS/1.0.0 (bigemon@foxmail.com)"),
         ("Content-Type", "application/x-www-form-urlencoded; charset=utf-8")],
        RecordAPI.Modify.params ⟨"id,token", answering actionDone⟩ "example.com" 12345 RTypeA
          "1.2.3.4" [⟨"", "", false, 0, 600, 0⟩]⟩,
      by decide, by decide,
      ((C12_Modify_has_contract_of_Create ⟨"id,token", answering actionDone⟩ "example.com" 12345
        RTypeA "1.2.3.4" [⟨"", "", false, 0, 600, 0⟩]).2.2 _ (by decide)
        ⟨"POST", "https://dnsapi.cn/Record.Modify",
          [("User-Agent", "Go DDNS/1.0.0 (bigemon@foxmail.com)"),
         ("Content-Type", "application/x-www-form-urlencoded; charset=utf-8")],
          RecordAPI.Modify.params ⟨"id,token", answering actionDone⟩ "example.com" 12345 RTypeA
            "1.2.3.4" [⟨"", "", false, 0, 600, 0⟩]⟩ (by decide)).1,
      by decide, by decide⟩⟩

/-- C13. Record.Remark with the empty remark is not stopped locally: for every domain and
record ID it hands one request to the client, the POST to Record.Remark whose parameters are
login_token, format=json, domain, record_id in decimal and remark, present and empty; and
when the client answers with a body that json.Unmarshal decodes without error into a jsonRes
with status code 1, the call returns no error. -/
theorem C13_Remark_empty_is_sent (p : RecordAPI) (domain : String) (recordID : Int) :
    (RecordAPI.Remark p domain recordID "").calls =
      [⟨"POST", "https://dnsapi.cn/Record.Remark",
        [("User-Agent", "Go DDNS/1.0.0 (bigemon@foxmail.com)"),
         ("Content-Type", "application/x-www-form-urlencoded; charset=utf-8")],
        [("login_token", p.loginToken), ("format", "json"), ("domain", domain),
         ("record_id", strconv.Itoa recordID), ("remark", "")]⟩] ∧
    Values.lookup [("login_token", p.loginToken), ("format", "json"), ("domain", domain),
         ("record_id", strconv.Itoa recordID), ("remark", "")] "remark" = some "" ∧
    ∀ (body : Body) (st : Status),
      p.client ⟨"POST", "https://dnsapi.cn/Record.Remark",
        [("User-Agent", "Go DDNS/1.0.0 (bigemon@foxmail.com)"),
         ("Content-Type", "application/x-www-form-urlencoded; charset=utf-8")],
        [("login_token", p.loginToken), ("format", "json"), ("domain", domain),
         ("record_id", strconv.Itoa recordID), ("remark", "")]⟩ = Except.ok body →
      json.Unmarshal body statusOnly Status.zero = (st, none) →
      st.Code = 1 →
      (RecordAPI.Remark p domain recordID "").err = none := by
  have hform : Values.Set (Values.Set (Values.Set (Values.Set (Values.Set [] "login_token"
      p.loginToken) "format" "json") "domain" domain) "record_id" (strconv.Itoa recordID))
      "remark" "" =
      [("login_token", p.loginToken), ("format", "json"), ("domain", domain),
       ("record_id", strconv.Itoa recordID), ("remark", "")] := by
    simp [Values.Set]
  refine ⟨?_, ?_, ?_⟩
  · simp only [RecordAPI.Remark, simpleHTTP, hform]
    split
    · rfl
    · split
      · rfl
      · split <;> rfl
  · simp [Values.lookup]
  · intro body st hbody hdec hcode
    simp only [RecordAPI.Remark, simpleHTTP, hform, hbody, hdec, hcode, bne_self_eq_false,
      Bool.false_eq_true, if_false]

/-- C13 at the domain "example.com" and record 12345, the service answering the success
envelope. -/
theorem C13_Remark_empty_is_sent_witness :
    (answering actionDone) ⟨"POST", "https://dnsapi.cn/Record.Remark",
        [("User-Agent", "Go DDNS/1.0.0 (bigemon@foxmail.com)"),
         ("Content-Type", "application/x-www-form-urlencoded; charset=utf-8")],
        [("login_token", "id,token"), ("format", "json"), ("domain", "example.com"),
         ("record_id", strconv.Itoa 12345), ("remark", "")]⟩ = Except.ok actionDone ∧
    json.Unmarshal actionDone statusOnly Status.zero =
      (⟨1, "Action completed successful", Time.zero⟩, none) ∧
    (RecordAPI.Remark ⟨"id,token", answering actionDone⟩ "example.com" 12345 "").err = none :=
  ⟨rfl, by decide,
    (C13_Remark_empty_is_sent ⟨"id,token", answering actionDone⟩ "example.com" 12345).2.2
      actionDone ⟨1, "Action completed successful", Time.zero⟩ rfl (by decide) rfl⟩

end Dnspod
